import Mathlib

/-!
DoltgreSQL: extended type codec and regclass name resolution

A shallow embedding of `server/types/serialization.go`,
`server/types/oid/regclass.go`, `server/functions/to_hex.go` and
`server/functions/lower.go`, followed by theorems about them.

Conventions of the embedding:

* a Go `byte` is a `Nat` below 256, a `[]byte` is a `List Nat`; a slice or
  interface value that may be `nil` is an `Option`;
* a Go `error` is its message, `Option String`, `none` being `nil`;
* a Go call either returns or ends in a run-time panic: `Run`.
-/

namespace Doltgres

/-! ## Go run-time behaviour -/

/-- Outcome of a Go call: a normal return, or a run-time panic with its message. -/
inductive Run (α : Type) where
  | returned (v : α)
  | panicked (msg : String)
deriving DecidableEq, Repr

/-- Sequencing of Go calls: a panic in the first call ends the whole computation. -/
def Run.bind {α β : Type} (r : Run α) (f : α → Run β) : Run β :=
  match r with
  | .returned v => f v
  | .panicked msg => .panicked msg

instance : Monad Run where
  pure := Run.returned
  bind := Run.bind

/-- The message of Go's bounds-check panic for index `i` on a slice of length `n`. -/
def indexOutOfRange (i n : Nat) : String :=
  "runtime error: index out of range [" ++ toString i ++ "] with length " ++ toString n

/-- Go's `make([]byte, n)`: `n` zero bytes. -/
def makeBytes (n : Nat) : List Nat := List.replicate n 0

/-- Go's `copy(dst, src)`: overwrites the first `min(len(dst), len(src))` bytes of `dst`. -/
def copy (dst src : List Nat) : List Nat :=
  src.take (min dst.length src.length) ++ dst.drop (min dst.length src.length)

/-! ## `encoding/binary`, little endian -/

/-- Go `binary.LittleEndian.PutUint16(b, v)`: panics unless `len(b) >= 2`, then stores
`byte(v)` and `byte(v >> 8)`. -/
def PutUint16 (b : List Nat) (v : Nat) : Run (List Nat) :=
  match b with
  | _ :: _ :: rest => .returned (v % 256 :: v / 256 % 256 :: rest)
  | _ => .panicked (indexOutOfRange 1 b.length)

/-- Go `binary.LittleEndian.PutUint32(b, v)`: panics unless `len(b) >= 4`, then stores
`byte(v)`, `byte(v >> 8)`, `byte(v >> 16)`, `byte(v >> 24)`. -/
def PutUint32 (b : List Nat) (v : Nat) : Run (List Nat) :=
  match b with
  | _ :: _ :: _ :: _ :: rest =>
    .returned (v % 256 :: v / 256 % 256 :: v / 65536 % 256 :: v / 16777216 % 256 :: rest)
  | _ => .panicked (indexOutOfRange 3 b.length)

/-- Go `binary.LittleEndian.Uint16(b)`: panics unless `len(b) >= 2`, then returns
`uint16(b[0]) | uint16(b[1])<<8` (a sum, the bytes being below 256). -/
def Uint16 (b : List Nat) : Run Nat :=
  match b with
  | b0 :: b1 :: _ => .returned (b0 + b1 * 256)
  | _ => .panicked (indexOutOfRange 1 b.length)

/-- Go `binary.LittleEndian.Uint32(b)`: panics unless `len(b) >= 4`, then returns
`uint32(b[0]) | uint32(b[1])<<8 | uint32(b[2])<<16 | uint32(b[3])<<24`. -/
def Uint32 (b : List Nat) : Run Nat :=
  match b with
  | b0 :: b1 :: b2 :: b3 :: _ => .returned (b0 + b1 * 256 + b2 * 65536 + b3 * 16777216)
  | _ => .panicked (indexOutOfRange 3 b.length)

/-! ## `server/types/serialization.go` -/

/-- The type `SerializationID`, a `uint16`. -/
abbrev SerializationID := Nat

def SerializationID_Invalid : SerializationID := 0
def SerializationID_Bit : SerializationID := 1
def SerializationID_BitArray : SerializationID := 2
def SerializationID_Bool : SerializationID := 3
def SerializationID_BoolArray : SerializationID := 4
def SerializationID_Box : SerializationID := 5
def SerializationID_BoxArray : SerializationID := 6
def SerializationID_Bytea : SerializationID := 7
def SerializationID_ByteaArray : SerializationID := 8
def SerializationID_Char : SerializationID := 9
def SerializationID_CharArray : SerializationID := 10
def SerializationID_Cidr : SerializationID := 11
def SerializationID_CidrArray : SerializationID := 12
def SerializationID_Circle : SerializationID := 13
def SerializationID_CircleArray : SerializationID := 14
def SerializationID_Date : SerializationID := 15
def SerializationID_DateArray : SerializationID := 16
def SerializationID_DateMultirange : SerializationID := 17
def SerializationID_DateRange : SerializationID := 18
def SerializationID_Enum : SerializationID := 19
def SerializationID_EnumArray : SerializationID := 20
def SerializationID_Float32 : SerializationID := 21
def SerializationID_Float32Array : SerializationID := 22
def SerializationID_Float64 : SerializationID := 23
def SerializationID_Float64Array : SerializationID := 24
def SerializationID_Inet : SerializationID := 25
def SerializationID_InetArray : SerializationID := 26
def SerializationID_Int16 : SerializationID := 27
def SerializationID_Int16Array : SerializationID := 28
def SerializationID_Int32 : SerializationID := 29
def SerializationID_Int32Array : SerializationID := 30
def SerializationID_Int32Multirange : SerializationID := 31
def SerializationID_Int32Range : SerializationID := 32
def SerializationID_Int64 : SerializationID := 33
def SerializationID_Int64Array : SerializationID := 34
def SerializationID_Int64Multirange : SerializationID := 35
def SerializationID_Int64Range : SerializationID := 36
def SerializationID_Interval : SerializationID := 37
def SerializationID_IntervalArray : SerializationID := 38
def SerializationID_Json : SerializationID := 39
def SerializationID_JsonArray : SerializationID := 40
def SerializationID_JsonB : SerializationID := 41
def SerializationID_JsonBArray : SerializationID := 42
def SerializationID_Line : SerializationID := 43
def SerializationID_LineArray : SerializationID := 44
def SerializationID_LineSegment : SerializationID := 45
def SerializationID_LineSegmentArray : SerializationID := 46
def SerializationID_MacAddress : SerializationID := 47
def SerializationID_MacAddress8 : SerializationID := 48
def SerializationID_MacAddress8Array : SerializationID := 49
def SerializationID_MacAddressArray : SerializationID := 50
def SerializationID_Money : SerializationID := 51
def SerializationID_MoneyArray : SerializationID := 52
def SerializationID_Null : SerializationID := 53
def SerializationID_Numeric : SerializationID := 54
def SerializationID_NumericArray : SerializationID := 55
def SerializationID_NumericMultirange : SerializationID := 56
def SerializationID_NumericRange : SerializationID := 57
def SerializationID_Path : SerializationID := 58
def SerializationID_PathArray : SerializationID := 59
def SerializationID_Point : SerializationID := 60
def SerializationID_PointArray : SerializationID := 61
def SerializationID_Polygon : SerializationID := 62
def SerializationID_PolygonArray : SerializationID := 63
def SerializationID_Text : SerializationID := 64
def SerializationID_TextArray : SerializationID := 65
def SerializationID_Time : SerializationID := 66
def SerializationID_TimeArray : SerializationID := 67
def SerializationID_TimeTZ : SerializationID := 68
def SerializationID_TimeTZArray : SerializationID := 69
def SerializationID_Timestamp : SerializationID := 70
def SerializationID_TimestampArray : SerializationID := 71
def SerializationID_TimestampMultirange : SerializationID := 72
def SerializationID_TimestampRange : SerializationID := 73
def SerializationID_TimestampTZ : SerializationID := 74
def SerializationID_TimestampTZArray : SerializationID := 75
def SerializationID_TimestampTZMultirange : SerializationID := 76
def SerializationID_TimestampTZRange : SerializationID := 77
def SerializationID_TsQuery : SerializationID := 78
def SerializationID_TsQueryArray : SerializationID := 79
def SerializationID_TsVector : SerializationID := 80
def SerializationID_TsVectorArray : SerializationID := 81
def SerializationID_Uuid : SerializationID := 82
def SerializationID_UuidArray : SerializationID := 83
def SerializationID_VarBit : SerializationID := 84
def SerializationID_VarBitArray : SerializationID := 85
def SerializationID_VarChar : SerializationID := 86
def SerializationID_VarCharArray : SerializationID := 87
def SerializationID_Xml : SerializationID := 88
def SerializationID_XmlArray : SerializationID := 89

/-- Method `SerializationID.ToByteSlice`: the ID as a 2-byte little-endian slice. -/
def ToByteSlice (id : SerializationID) : Run (List Nat) :=
  PutUint16 (makeBytes 2) id

/-- Modelled from the spec: the declarations of the concrete extended types
(`BoolType`, ..., `VarCharType`) are not among the source files. The ten
parameter-free types named in `SerializeType`'s switch are field-less variants,
`VarCharType` carries its `Length` (a `uint32`), and `Unwired` stands for every
concrete type the switch does not name, identified by its type name. -/
inductive ExtendedType where
  | BoolType
  | BoolArrayType
  | Float32Type
  | Float64Type
  | Int16Type
  | Int32Type
  | Int64Type
  | NullType
  | NumericType
  | UuidType
  | VarCharType (Length : Nat)
  | Unwired (typeName : String)
deriving DecidableEq, Repr

/-- Package-level value `Bool` of type `BoolType`. -/
def types.Bool : ExtendedType := .BoolType
/-- Package-level value `BoolArray` of type `BoolArrayType`. -/
def types.BoolArray : ExtendedType := .BoolArrayType
/-- Package-level value `Float32` of type `Float32Type`. -/
def types.Float32 : ExtendedType := .Float32Type
/-- Package-level value `Float64` of type `Float64Type`. -/
def types.Float64 : ExtendedType := .Float64Type
/-- Package-level value `Int16` of type `Int16Type`. -/
def types.Int16 : ExtendedType := .Int16Type
/-- Package-level value `Int32` of type `Int32Type`. -/
def types.Int32 : ExtendedType := .Int32Type
/-- Package-level value `Int64` of type `Int64Type`. -/
def types.Int64 : ExtendedType := .Int64Type
/-- Package-level value `Null` of type `NullType`. -/
def types.Null : ExtendedType := .NullType
/-- Package-level value `Numeric` of type `NumericType`. -/
def types.Numeric : ExtendedType := .NumericType
/-- Package-level value `Uuid` of type `UuidType`. -/
def types.Uuid : ExtendedType := .UuidType

/-- A value the Go type system admits: the `uint32` field is below `2^32`. -/
def ExtendedType.wellFormed : ExtendedType → Prop
  | .VarCharType Length => Length < 2 ^ 32
  | _ => True

instance (t : ExtendedType) : Decidable t.wellFormed := by
  cases t <;> unfold ExtendedType.wellFormed <;> infer_instance

/-- The variants named by a `case` of `SerializeType`'s type switch. -/
def ExtendedType.wired : ExtendedType → Bool
  | .Unwired _ => false
  | _ => true

/-- Function `SerializeType`: the pair `([]byte, error)` it returns. -/
def SerializeType (extendedType : ExtendedType) : Run (Option (List Nat) × Option String) :=
  match extendedType with
  | .BoolType => do return (some (← ToByteSlice SerializationID_Bool), none)
  | .BoolArrayType => do return (some (← ToByteSlice SerializationID_BoolArray), none)
  | .Float32Type => do return (some (← ToByteSlice SerializationID_Float32), none)
  | .Float64Type => do return (some (← ToByteSlice SerializationID_Float64), none)
  | .Int16Type => do return (some (← ToByteSlice SerializationID_Int16), none)
  | .Int32Type => do return (some (← ToByteSlice SerializationID_Int32), none)
  | .Int64Type => do return (some (← ToByteSlice SerializationID_Int64), none)
  | .NullType => do return (some (← ToByteSlice SerializationID_Null), none)
  | .NumericType => do return (some (← ToByteSlice SerializationID_Numeric), none)
  | .UuidType => do return (some (← ToByteSlice SerializationID_Uuid), none)
  | .VarCharType Length => do
    let t := makeBytes 6
    let t := copy t (← ToByteSlice SerializationID_VarChar)
    -- `t[2:]` shares its storage with `t`: the write lands in `t` from offset 2
    let tail ← PutUint32 (t.drop 2) Length
    return (some (t.take 2 ++ tail), none)
  | .Unwired _ => return (none, some "unknown type to serialize")

/-- Function `MustSerializeType`: returns the bytes, or panics with the error of
`SerializeType`. -/
def MustSerializeType (extendedType : ExtendedType) : Run (Option (List Nat)) := do
  let (serializedType, err) ← SerializeType extendedType
  match err with
  | some e => Run.panicked e
  | none => return serializedType

/-- Function `SerializationIDFromBytes`: reads the leading two bytes, without validation. -/
def SerializationIDFromBytes (b : List Nat) : Run SerializationID :=
  Uint16 b

/-- Function `DeserializeType`: the pair `(types.ExtendedType, error)` it returns. -/
def DeserializeType (serializedType : List Nat) : Run (Option ExtendedType × Option String) :=
  if serializedType.length < 2 then
    return (none, some "cannot deserialize an empty type")
  else do
    let id ← SerializationIDFromBytes serializedType
    if id = SerializationID_Bool then return (some types.Bool, none)
    else if id = SerializationID_BoolArray then return (some types.BoolArray, none)
    else if id = SerializationID_Float32 then return (some types.Float32, none)
    else if id = SerializationID_Float64 then return (some types.Float64, none)
    else if id = SerializationID_Int16 then return (some types.Int16, none)
    else if id = SerializationID_Int32 then return (some types.Int32, none)
    else if id = SerializationID_Int64 then return (some types.Int64, none)
    else if id = SerializationID_Null then return (some types.Null, none)
    else if id = SerializationID_Numeric then return (some types.Numeric, none)
    else if id = SerializationID_VarChar then do
      let Length ← Uint32 (serializedType.drop 2)
      return (some (.VarCharType Length), none)
    else if id = SerializationID_Uuid then return (some types.Uuid, none)
    else return (none, some "unknown type to deserialize")


/-! ## `strconv` -/

/-- The two error kinds of `strconv`: `ErrSyntax` and `ErrRange`. -/
inductive NumError where
  | ErrSyntax
  | ErrRange
deriving DecidableEq, Repr

/-- The loop of `strconv.ParseUint` for base 10, over the bytes still to read, `n` being
the value so far. A byte that is not an ASCII digit ends the parse with a syntax error
(a letter is a digit of 10 or more, an underscore is accepted for base 0 only, and the
bytes of a character outside ASCII are all above `z`), so the loop runs over the
characters. -/
def ParseUint.loop (cutoff maxVal : Nat) : List Char → Nat → Nat × Option NumError
  | [], n => (n, none)
  | c :: rest, n =>
    if 48 ≤ c.toNat ∧ c.toNat ≤ 57 then
      let d := c.toNat - 48
      if n ≥ cutoff then (maxVal, some .ErrRange)
      else
        let n := n * 10 % 2 ^ 64
        let n1 := (n + d) % 2 ^ 64
        if n1 < n ∨ n1 > maxVal then (maxVal, some .ErrRange)
        else ParseUint.loop cutoff maxVal rest n1
    else (0, some .ErrSyntax)

/-- Go `strconv.ParseUint(s, 10, bitSize)` for `1 <= bitSize <= 64`. -/
def ParseUint (s : String) (bitSize : Nat) : Nat × Option NumError :=
  if s = "" then (0, some .ErrSyntax)
  else ParseUint.loop ((2 ^ 64 - 1) / 10 + 1) (2 ^ bitSize - 1) s.toList 0

/-- Go `strconv.FormatUint(i, 10)`: the decimal digits of `i`. -/
def FormatUint (i : Nat) : String := Nat.repr i

/-! ## Catalog items and their enumeration (`server/types/oid`) -/

/-- Modelled from the spec: `ItemSchema` is declared outside the source files; the code
reads `schema.Item.SchemaName()`. -/
structure ItemSchema where
  OID : Nat
  SchemaName : String
deriving DecidableEq, Repr

/-- Modelled from the spec: `ItemTable` is declared outside the source files; the code
reads `table.OID` and `table.Item.Name()`. -/
structure ItemTable where
  OID : Nat
  Name : String
deriving DecidableEq, Repr

/-- Modelled from the spec: `ItemIndex` is declared outside the source files; the code
reads `index.OID`, `index.Item.ID()` and `index.Item.Table()`. -/
structure ItemIndex where
  OID : Nat
  ID : String
  Table : String
deriving DecidableEq, Repr

/-- Modelled from the spec: `ItemSequence` is declared outside the source files; the code
reads `sequence.OID` and `sequence.Item.Name`. -/
structure ItemSequence where
  OID : Nat
  Name : String
deriving DecidableEq, Repr

/-- Modelled from the spec: `ItemView` is declared outside the source files; the code
reads `view.OID` and `view.Item.Name`. -/
structure ItemView where
  OID : Nat
  Name : String
deriving DecidableEq, Repr

/-- Modelled from the spec: a catalog item as the enumerator hands it to the visitor of
its kind, with the arguments that visitor receives. -/
inductive CatalogItem where
  | Index (schema : ItemSchema) (table : ItemTable) (index : ItemIndex)
  | Sequence (schema : ItemSchema) (sequence : ItemSequence)
  | Table (schema : ItemSchema) (table : ItemTable)
  | View (schema : ItemSchema) (view : ItemView)
deriving DecidableEq, Repr

/-- Modelled from the spec: one step of a catalog traversal, either the next item in
enumeration order or an error of the underlying engine while listing. -/
inductive EnumStep where
  | item (i : CatalogItem)
  | listingError (err : String)
deriving DecidableEq, Repr

/-- Modelled from the spec: `Callbacks`, declared outside the source files: one optional
visitor per kind and the schemas to search. A Go visitor is a closure over a local
variable of its caller (`resultOid`, `output`); here it takes that variable's value
`σ` and returns the new value with `(cont, err)`. -/
structure Callbacks (σ : Type) where
  Index : Option (σ → ItemSchema → ItemTable → ItemIndex → σ × Bool × Option String) := none
  Sequence : Option (σ → ItemSchema → ItemSequence → σ × Bool × Option String) := none
  Table : Option (σ → ItemSchema → ItemTable → σ × Bool × Option String) := none
  View : Option (σ → ItemSchema → ItemView → σ × Bool × Option String) := none
  SearchSchemas : List String := []

/-- What `*sql.Context` and the catalog behind it answer during one call. -/
structure Context where
  /-- What `ctx.GetCurrentDatabase()` returns. -/
  GetCurrentDatabase : String
  /-- What `resolve.SearchPath(ctx)` returns. -/
  SearchPath : List String × Option String
  /-- What `settings.GetCurrentSchemasAsMap(ctx)` returns: the keys of the map. -/
  GetCurrentSchemasAsMap : List String × Option String
  /-- The traversal of a database restricted to a schema list, in enumeration order. -/
  enumeration : String → List String → List EnumStep
  /-- The single-target lookup of an OID: the item found, if any, or a listing error. -/
  lookup : Nat → Option CatalogItem × Option String

/-- Modelled from the spec: invoking the visitor of an item's kind; an omitted visitor
is skipped and the traversal continues. -/
def Callbacks.invoke {σ : Type} (cb : Callbacks σ) (i : CatalogItem) (s : σ) :
    σ × Bool × Option String :=
  match i with
  | .Index schema table index =>
    match cb.Index with
    | some f => f s schema table index
    | none => (s, true, none)
  | .Sequence schema sequence =>
    match cb.Sequence with
    | some f => f s schema sequence
    | none => (s, true, none)
  | .Table schema table =>
    match cb.Table with
    | some f => f s schema table
    | none => (s, true, none)
  | .View schema view =>
    match cb.View with
    | some f => f s schema view
    | none => (s, true, none)

/-- Modelled from the spec: the traversal loop of the Catalog Enumerator. A listing
error aborts the traversal and is returned as it is; a visitor's error is returned; a
visitor that signals stop halts the traversal at once. -/
def IterateDatabase.run {σ : Type} (cb : Callbacks σ) : List EnumStep → σ → σ × Option String
  | [], s => (s, none)
  | .listingError err :: _, s => (s, some err)
  | .item i :: rest, s =>
    match cb.invoke i s with
    | (s, _, some err) => (s, some err)
    | (s, false, none) => (s, none)
    | (s, true, none) => IterateDatabase.run cb rest s

/-- Modelled from the spec: `IterateDatabase(ctx, database, callbacks)`, which is not
among the source files: traverses `database`, restricted to `callbacks.SearchSchemas`. -/
def IterateDatabase {σ : Type} (ctx : Context) (database : String) (cb : Callbacks σ) (s : σ) :
    σ × Option String :=
  IterateDatabase.run cb (ctx.enumeration database cb.SearchSchemas) s

/-- Modelled from the spec: `RunCallback(ctx, oid, callbacks)`, which is not among the
source files: the single-target traversal, invoking the visitor of the item that has
this OID, if there is one. -/
def RunCallback {σ : Type} (ctx : Context) (oid : Nat) (cb : Callbacks σ) (s : σ) :
    σ × Option String :=
  match ctx.lookup oid with
  | (_, some err) => (s, some err)
  | (none, none) => (s, none)
  | (some i, none) =>
    match cb.invoke i s with
    | (s, _, err) => (s, err)

/-! ## `server/types/oid/regclass.go` -/

/-- A collaborator consulted during a call, with the arguments it was given. -/
inductive Call where
  | GetCurrentDatabase
  | SearchPath
  | IterateDatabase (database : String) (SearchSchemas : List String)
  | GetCurrentSchemasAsMap
  | RunCallback (oid : Nat)
deriving DecidableEq, Repr

/-- Function `regclass_IoInputValidation`: the error it returns, `none` for `nil`. -/
def regclass_IoInputValidation (input : String) (sections : List String) : Option String :=
  match sections with
  | [_] => none
  | [_, s1, _] =>
    if s1 ≠ "." then some "invalid name syntax"
    else none
  | [_, s1, _, s3, _] =>
    if s1 ≠ "." ∨ s3 ≠ "." then some "invalid name syntax"
    else none
  | [_, s1, _, s3, _, s5, _] =>
    if s1 ≠ "." ∨ s3 ≠ "." ∨ s5 ≠ "." then some "invalid name syntax"
    else some ("improper qualified name (too many dotted names): " ++ input)
  | _ => some "invalid name syntax"

/-- The visitors `regclass_IoInput` hands to `IterateDatabase`; their shared variable
is `resultOid`. -/
def regclass_IoInput.callbacks (relationName : String) (searchSchemas : List String) :
    Callbacks Nat where
  Index := some fun resultOid _schema _table index =>
    let idxName := index.ID
    let idxName := if idxName = "PRIMARY" then index.Table ++ "_pkey" else idxName
    if relationName = idxName then (index.OID, false, none)
    else (resultOid, true, none)
  Sequence := some fun resultOid _schema sequence =>
    if sequence.Name = relationName then (sequence.OID, false, none)
    else (resultOid, true, none)
  Table := some fun resultOid _schema table =>
    if table.Name = relationName then (table.OID, false, none)
    else (resultOid, true, none)
  View := some fun resultOid _schema view =>
    if view.Name = relationName then (view.OID, false, none)
    else (resultOid, true, none)
  SearchSchemas := searchSchemas

/-- What a call of `regclass_IoInput` returns, `(oid, err)`, and the collaborators it
consulted, in call order. -/
structure IoInputResult where
  oid : Nat
  err : Option String
  calls : List Call
deriving DecidableEq, Repr

/-- The part of `regclass_IoInput` after the scoping switch: the traversal and the
final result. `calls` are the collaborators consulted so far. -/
def regclass_IoInput.resolve (ctx : Context) (input database : String)
    (searchSchemas : List String) (relationName : String) (calls : List Call) : IoInputResult :=
  let resultOid := 0
  match IterateDatabase ctx database (regclass_IoInput.callbacks relationName searchSchemas)
      resultOid with
  | (resultOid, err) =>
    let calls := calls ++ [Call.IterateDatabase database searchSchemas]
    if err ≠ none ∨ resultOid ≠ 0 then ⟨resultOid, err, calls⟩
    else ⟨0, some ("relation \"" ++ input ++ "\" does not exist"), calls⟩

/-- Function `regclass_IoInput`. The splitter `ioInputSections` is declared outside the
source files and is a parameter: it returns the sections and an error. -/
def regclass_IoInput (ctx : Context) (ioInputSections : String → List String × Option String)
    (input : String) : IoInputResult :=
  match ParseUint input 32 with
  | (parsedOid, none) => ⟨parsedOid % 2 ^ 32, none, []⟩
  | (_, some _) =>
    match ioInputSections input with
    | (_, some err) => ⟨0, some err, []⟩
    | (sections, none) =>
      match regclass_IoInputValidation input sections with
      | some err => ⟨0, some err, []⟩
      | none =>
        match sections with
        | [s0] =>
          let database := ctx.GetCurrentDatabase
          match ctx.SearchPath with
          | (_, some err) => ⟨0, some err, [.GetCurrentDatabase, .SearchPath]⟩
          | (searchSchemas, none) =>
            regclass_IoInput.resolve ctx input database searchSchemas s0
              [.GetCurrentDatabase, .SearchPath]
        | [s0, _, s2] =>
          let database := ctx.GetCurrentDatabase
          regclass_IoInput.resolve ctx input database [s0] s2 [.GetCurrentDatabase]
        | [s0, _, s2, _, s4] =>
          regclass_IoInput.resolve ctx input s0 [s2] s4 []
        | _ => ⟨0, some "regclass failed validation", []⟩

/-- The visitors `regclass_IoOutput` hands to `RunCallback`; their shared variable is
`output`. `schemasMap` is the key set of the map of schemas in scope. -/
def regclass_IoOutput.callbacks (schemasMap : List String) : Callbacks String where
  Index := some fun _output schema _table index =>
    let output := index.ID
    if output = "PRIMARY" then
      let schemaName := schema.SchemaName
      if schemaName ∈ schemasMap then (index.Table ++ "_pkey", false, none)
      else (schemaName ++ "." ++ index.Table ++ "_pkey", false, none)
    else (output, false, none)
  Sequence := some fun _output schema sequence =>
    let schemaName := schema.SchemaName
    if schemaName ∈ schemasMap then (sequence.Name, false, none)
    else (schemaName ++ "." ++ sequence.Name, false, none)
  Table := some fun _output schema table =>
    let schemaName := schema.SchemaName
    if schemaName ∈ schemasMap then (table.Name, false, none)
    else (schemaName ++ "." ++ table.Name, false, none)
  View := some fun _output schema view =>
    let schemaName := schema.SchemaName
    if schemaName ∈ schemasMap then (view.Name, false, none)
    else (schemaName ++ "." ++ view.Name, false, none)

/-- What a call of `regclass_IoOutput` returns, `(output, err)`, and the collaborators
it consulted, in call order. -/
structure IoOutputResult where
  output : String
  err : Option String
  calls : List Call
deriving DecidableEq, Repr

/-- Function `regclass_IoOutput`. -/
def regclass_IoOutput (ctx : Context) (oid : Nat) : IoOutputResult :=
  match ctx.GetCurrentSchemasAsMap with
  | (_, some err) => ⟨"", some err, [.GetCurrentSchemasAsMap]⟩
  | (schemasMap, none) =>
    let schemasMap := "pg_catalog" :: schemasMap
    let output := FormatUint oid
    match RunCallback ctx oid (regclass_IoOutput.callbacks schemasMap) output with
    | (output, err) => ⟨output, err, [.GetCurrentSchemasAsMap, .RunCallback oid]⟩

/-! ## `server/functions/to_hex.go` -/

/-- Go `fmt.Sprintf("%x", u)` for an unsigned integer `u`: its lowercase hexadecimal
digits, without leading zeros (`0` for zero). -/
def fmtHex (u : Nat) : String := String.mk (Nat.toDigits 16 u)

/-- The `Callable` of `to_hex_int32`: `val1` is the `int32` argument; the conversion
`uint64(val1.(int32))` of a signed value extends its sign, which is `val1` modulo
`2^64`. Returns the pair `(any, error)`. -/
def to_hex_int32 (val1 : Int) : String × Option String :=
  (fmtHex (val1 % 2 ^ 64).toNat, none)

/-- The `Callable` of `to_hex_int64`: `val1` is the `int64` argument; the conversion
`uint64(val1.(int64))` is `val1` modulo `2^64`. Returns the pair `(any, error)`. -/
def to_hex_int64 (val1 : Int) : String × Option String :=
  (fmtHex (val1 % 2 ^ 64).toNat, none)

/-! ## `server/functions/lower.go` -/

end Doltgres

/-! ## Spec-side notions -/

namespace Doltgres

/-- The little-endian form of `v` on `width` bytes: least significant byte first. -/
def littleEndian : (width : Nat) → (v : Nat) → List Nat
  | 0, _ => []
  | width + 1, v => v % 256 :: littleEndian width (v / 256)

/-- The value a little-endian byte sequence stands for. -/
def littleEndianValue : List Nat → Nat
  | [] => 0
  | b :: rest => b + 256 * littleEndianValue rest

/-- The IDs for which `DeserializeType` has a `case`. -/
def registeredDecoderIDs : List Nat := [3, 4, 21, 23, 27, 29, 33, 53, 54, 82, 86]

/-- The section lists `regclass_IoInputValidation` accepts: one section, or three with
"." in the middle, or five with "." at positions 1 and 3. -/
def acceptedShape (sections : List String) : Prop :=
  sections.length = 1 ∨
  (sections.length = 3 ∧ sections[1]? = some ".") ∨
  (sections.length = 5 ∧ sections[1]? = some "." ∧ sections[3]? = some ".")

/-- The section lists of a name with four dotted parts: seven sections with "." at
positions 1, 3 and 5. -/
def tooManyDottedNames (sections : List String) : Prop :=
  sections.length = 7 ∧ sections[1]? = some "." ∧ sections[3]? = some "." ∧
    sections[5]? = some "."

instance (sections : List String) : Decidable (acceptedShape sections) := by
  unfold acceptedShape; infer_instance

instance (sections : List String) : Decidable (tooManyDottedNames sections) := by
  unfold tooManyDottedNames; infer_instance

/-- A message contains a text: the text is a contiguous part of it. -/
def messageContains (msg part : String) : Prop := part.toList <:+: msg.toList

instance (msg part : String) : Decidable (messageContains msg part) := by
  unfold messageContains; infer_instance

/-- The scoping of a name lookup, after the spec: one section uses the current database
and the search path, three sections the current database and the schema qualifier,
five sections the given database and the schema qualifier. The result is the database,
the schema list and the relation name; there is none for another shape or when the
search path cannot be had. -/
def lookupScope (ctx : Context) (sections : List String) :
    Option (String × List String × String) :=
  match sections with
  | [s0] =>
    match ctx.SearchPath with
    | (searchPath, none) => some (ctx.GetCurrentDatabase, searchPath, s0)
    | (_, some _) => none
  | [s0, _, s2] => some (ctx.GetCurrentDatabase, [s0], s2)
  | [s0, _, s2, _, s4] => some (s0, [s2], s4)
  | _ => none

/-- The OID a catalog item carries. -/
def CatalogItem.OID : CatalogItem → Nat
  | .Index _ _ index => index.OID
  | .Sequence _ sequence => sequence.OID
  | .Table _ table => table.OID
  | .View _ view => view.OID

/-- The name a catalog item is found under: a table, view or sequence under its name,
an index under its identifier, the implicit primary-key index (identifier "PRIMARY")
under the name of its table followed by "_pkey". -/
def CatalogItem.matchName : CatalogItem → String
  | .Index _ _ index => if index.ID = "PRIMARY" then index.Table ++ "_pkey" else index.ID
  | .Sequence _ sequence => sequence.Name
  | .Table _ table => table.Name
  | .View _ view => view.Name

/-- The schema that owns a catalog item. -/
def CatalogItem.schema : CatalogItem → ItemSchema
  | .Index schema _ _ => schema
  | .Sequence schema _ => schema
  | .Table schema _ => schema
  | .View schema _ => schema

/-- The kind of a catalog item: an index, or a relation of another kind (table,
sequence or view). -/
def CatalogItem.isIndex : CatalogItem → Bool
  | .Index _ _ _ => true
  | _ => false

/-- The name of a catalog item: the name of a table, sequence or view, the identifier
of an index. -/
def CatalogItem.name : CatalogItem → String
  | .Index _ _ index => index.ID
  | .Sequence _ sequence => sequence.Name
  | .Table _ table => table.Name
  | .View _ view => view.Name

/-- A schema is in scope: it is on the search path, or it is `pg_catalog`. -/
def inScope (searchPath : List String) (schemaName : String) : Prop :=
  schemaName ∈ searchPath ∨ schemaName = "pg_catalog"

instance (searchPath : List String) (schemaName : String) :
    Decidable (inScope searchPath schemaName) := by
  unfold inScope; infer_instance

/-- The value of a digit string in base 10. -/
def decimalValue (digits : List Char) : Nat :=
  digits.foldl (fun n c => n * 10 + (c.toNat - 48)) 0

/-- A sample catalog: the items of database "postgres", in enumeration order. -/
def sampleItems : List CatalogItem :=
  [.Table ⟨1, "public"⟩ ⟨77, "orders"⟩,
   .Index ⟨1, "public"⟩ ⟨77, "orders"⟩ ⟨78, "PRIMARY", "orders"⟩,
   .Index ⟨1, "public"⟩ ⟨77, "orders"⟩ ⟨79, "orders_idx", "orders"⟩,
   .View ⟨1, "public"⟩ ⟨80, "orders"⟩,
   .Table ⟨2, "other"⟩ ⟨90, "t"⟩,
   .Index ⟨2, "other"⟩ ⟨90, "t"⟩ ⟨91, "PRIMARY", "t"⟩,
   .Index ⟨2, "other"⟩ ⟨90, "t"⟩ ⟨92, "idx", "t"⟩,
   .Sequence ⟨2, "other"⟩ ⟨93, "seq"⟩,
   .View ⟨3, "pg_catalog"⟩ ⟨94, "pg_class"⟩]

/-- A sample context: current database "postgres", search path "public", and the
sample catalog, enumerated schema by schema in the order of the schema list. -/
def sampleContext : Context where
  GetCurrentDatabase := "postgres"
  SearchPath := (["public"], none)
  GetCurrentSchemasAsMap := (["public"], none)
  enumeration := fun database searchSchemas =>
    if database = "postgres" then
      ((searchSchemas.map fun schemaName =>
        sampleItems.filter fun i => i.schema.SchemaName = schemaName).flatten).map EnumStep.item
    else []
  lookup := fun oid => (sampleItems.find? fun i => i.OID = oid, none)

/-- A sample context whose search path, current schemas, catalog listing and OID lookup
all fail. -/
def sampleFailingContext : Context where
  GetCurrentDatabase := "postgres"
  SearchPath := ([], some "search path unavailable")
  GetCurrentSchemasAsMap := ([], some "current schemas unavailable")
  enumeration := fun _ _ => [.listingError "listing failed"]
  lookup := fun _ => (none, some "lookup failed")

/-- A sample context with an empty search path whose OID lookup fails. -/
def sampleLookupFailingContext : Context where
  GetCurrentDatabase := "postgres"
  SearchPath := ([], none)
  GetCurrentSchemasAsMap := ([], none)
  enumeration := fun _ _ => []
  lookup := fun _ => (none, some "lookup failed")

/-- A sample splitter, given by its table on the inputs used below. -/
def sampleSections (input : String) : List String × Option String :=
  if input = "other.t" then (["other", ".", "t"], none)
  else if input = "postgres.other.seq" then (["postgres", ".", "other", ".", "seq"], none)
  else ([input], none)

/-- The value of a hexadecimal digit, lowercase or uppercase; 0 for another character. -/
def hexDigitValue (c : Char) : Nat :=
  if 48 ≤ c.toNat ∧ c.toNat ≤ 57 then c.toNat - 48
  else if 97 ≤ c.toNat ∧ c.toNat ≤ 102 then c.toNat - 87
  else if 65 ≤ c.toNat ∧ c.toNat ≤ 70 then c.toNat - 55
  else 0

/-- The value of a digit string in base 16. -/
def hexValue (digits : List Char) : Nat :=
  digits.foldl (fun n c => n * 16 + hexDigitValue c) 0

/-- The lowercase hexadecimal digits. -/
def lowerHexDigits : List Char := "0123456789abcdef".toList

/-- A byte slice: every element is below 256. -/
def isByteSlice (b : List Nat) : Prop := ∀ x ∈ b, x < 256

instance (b : List Nat) : Decidable (isByteSlice b) := by
  unfold isByteSlice; infer_instance

/-- A sample context whose catalog holds one table, "ghost", with the invalid OID 0. -/
def sampleZeroOidContext : Context where
  GetCurrentDatabase := "postgres"
  SearchPath := (["public"], none)
  GetCurrentSchemasAsMap := (["public"], none)
  enumeration := fun _ _ => [.item (.Table ⟨1, "public"⟩ ⟨0, "ghost"⟩)]
  lookup := fun _ => (none, none)

end Doltgres

/-! ## Theorems: extended type codec -/

namespace Doltgres

theorem SerializeType_VarCharType (n : Nat) :
    SerializeType (.VarCharType n) =
      .returned (some [86, 0, n % 256, n / 256 % 256, n / 65536 % 256, n / 16777216 % 256],
        none) := rfl

theorem DeserializeType_VarChar_six (b2 b3 b4 b5 : Nat) (rest : List Nat) :
    DeserializeType (86 :: 0 :: b2 :: b3 :: b4 :: b5 :: rest) =
      .returned (some (.VarCharType (b2 + b3 * 256 + b4 * 65536 + b5 * 16777216)), none) := rfl

/-- C1. Round trip: for every value of a type wired into `SerializeType` (the `uint32`
length of a `VarCharType` being below 2^32), `SerializeType` returns bytes and no
error, and `DeserializeType` on these bytes returns the same value and no error. -/
theorem SerializeType_DeserializeType_roundtrip (v : ExtendedType)
    (hwired : v.wired = true) (hwf : v.wellFormed) :
    ∃ b, SerializeType v = .returned (some b, none) ∧
      DeserializeType b = .returned (some v, none) := by
  cases v with
  | VarCharType n =>
    refine ⟨_, SerializeType_VarCharType n, ?_⟩
    rw [DeserializeType_VarChar_six]
    have hn : n < 2 ^ 32 := hwf
    have : n % 256 + n / 256 % 256 * 256 + n / 65536 % 256 * 65536
        + n / 16777216 % 256 * 16777216 = n := by omega
    rw [this]
  | Unwired name => simp [ExtendedType.wired] at hwired
  | _ => exact ⟨_, rfl, rfl⟩

theorem SerializeType_DeserializeType_roundtrip_witness :
    ∃ b, SerializeType (.VarCharType 300) = .returned (some b, none) ∧
      DeserializeType b = .returned (some (.VarCharType 300), none) :=
  SerializeType_DeserializeType_roundtrip (.VarCharType 300) rfl (by decide)

/-- C2. Encoding format: a `VarCharType` of length `n` below 2^32 encodes as the bytes
86, 0 followed by `n` on 4 little-endian bytes (6 bytes in all); each of the ten other
wired types encodes as exactly the 2 little-endian bytes of its SerializationID
constant, the high byte being zero. -/
theorem SerializeType_format :
    (∀ n, n < 2 ^ 32 →
      SerializeType (.VarCharType n) = .returned (some ([86, 0] ++ littleEndian 4 n), none) ∧
      (littleEndian 4 n).length = 4 ∧ (∀ x ∈ littleEndian 4 n, x < 256) ∧
      littleEndianValue (littleEndian 4 n) = n) ∧
    [86, 0] = littleEndian 2 SerializationID_VarChar ∧
    (SerializeType .BoolType = .returned (some [3, 0], none) ∧
      [3, 0] = littleEndian 2 SerializationID_Bool) ∧
    (SerializeType .BoolArrayType = .returned (some [4, 0], none) ∧
      [4, 0] = littleEndian 2 SerializationID_BoolArray) ∧
    (SerializeType .Float32Type = .returned (some [21, 0], none) ∧
      [21, 0] = littleEndian 2 SerializationID_Float32) ∧
    (SerializeType .Float64Type = .returned (some [23, 0], none) ∧
      [23, 0] = littleEndian 2 SerializationID_Float64) ∧
    (SerializeType .Int16Type = .returned (some [27, 0], none) ∧
      [27, 0] = littleEndian 2 SerializationID_Int16) ∧
    (SerializeType .Int32Type = .returned (some [29, 0], none) ∧
      [29, 0] = littleEndian 2 SerializationID_Int32) ∧
    (SerializeType .Int64Type = .returned (some [33, 0], none) ∧
      [33, 0] = littleEndian 2 SerializationID_Int64) ∧
    (SerializeType .NullType = .returned (some [53, 0], none) ∧
      [53, 0] = littleEndian 2 SerializationID_Null) ∧
    (SerializeType .NumericType = .returned (some [54, 0], none) ∧
      [54, 0] = littleEndian 2 SerializationID_Numeric) ∧
    (SerializeType .UuidType = .returned (some [82, 0], none) ∧
      [82, 0] = littleEndian 2 SerializationID_Uuid) := by
  refine ⟨?_, rfl, ⟨rfl, rfl⟩, ⟨rfl, rfl⟩, ⟨rfl, rfl⟩, ⟨rfl, rfl⟩, ⟨rfl, rfl⟩, ⟨rfl, rfl⟩,
    ⟨rfl, rfl⟩, ⟨rfl, rfl⟩, ⟨rfl, rfl⟩, ⟨rfl, rfl⟩⟩
  intro n hn
  have hle : littleEndian 4 n =
      [n % 256, n / 256 % 256, n / 65536 % 256, n / 16777216 % 256] := by
    simp only [littleEndian]
    have h2 : n / 256 / 256 = n / 65536 := by omega
    have h3 : n / 256 / 256 / 256 = n / 16777216 := by omega
    rw [h3, h2]
  refine ⟨?_, ?_, ?_, ?_⟩
  · rw [SerializeType_VarCharType, hle]; rfl
  · rw [hle]; rfl
  · intro x hx
    rw [hle] at hx
    simp only [List.mem_cons, List.mem_singleton, List.not_mem_nil, or_false] at hx
    omega
  · rw [hle]
    simp only [littleEndianValue]
    omega

theorem SerializeType_format_witness :
    SerializeType (.VarCharType 300) = .returned (some ([86, 0] ++ littleEndian 4 300), none) ∧
      (littleEndian 4 300).length = 4 ∧ (∀ x ∈ littleEndian 4 300, x < 256) ∧
      littleEndianValue (littleEndian 4 300) = 300 :=
  SerializeType_format.1 300 (by decide)

/-- C3. On every input of length 2 to 5 that starts with the VarChar SerializationID
(86, 0), `DeserializeType` reads the 4-byte length past the end of the input and ends
in a run-time panic instead of returning a type or an error. -/
theorem DeserializeType_short_VarChar_panics :
    DeserializeType [86, 0] =
      .panicked "runtime error: index out of range [3] with length 0" ∧
    DeserializeType [86, 0, 1] =
      .panicked "runtime error: index out of range [3] with length 1" ∧
    DeserializeType [86, 0, 1, 2] =
      .panicked "runtime error: index out of range [3] with length 2" ∧
    DeserializeType [86, 0, 1, 2, 3] =
      .panicked "runtime error: index out of range [3] with length 3" := by
  decide

/-- The dispatch of `DeserializeType` on an input of at least two bytes. -/
theorem DeserializeType_cons_cons (b0 b1 : Nat) (rest : List Nat) :
    DeserializeType (b0 :: b1 :: rest) =
      if b0 + b1 * 256 = 3 then .returned (some types.Bool, none)
      else if b0 + b1 * 256 = 4 then .returned (some types.BoolArray, none)
      else if b0 + b1 * 256 = 21 then .returned (some types.Float32, none)
      else if b0 + b1 * 256 = 23 then .returned (some types.Float64, none)
      else if b0 + b1 * 256 = 27 then .returned (some types.Int16, none)
      else if b0 + b1 * 256 = 29 then .returned (some types.Int32, none)
      else if b0 + b1 * 256 = 33 then .returned (some types.Int64, none)
      else if b0 + b1 * 256 = 53 then .returned (some types.Null, none)
      else if b0 + b1 * 256 = 54 then .returned (some types.Numeric, none)
      else if b0 + b1 * 256 = 86 then
        (Uint32 rest).bind fun Length => .returned (some (.VarCharType Length), none)
      else if b0 + b1 * 256 = 82 then .returned (some types.Uuid, none)
      else .returned (none, some "unknown type to deserialize") := rfl

/-- The error of a `DeserializeType` return on at least two bytes is `nil` or the
unknown-ID error. -/
theorem DeserializeType_cons_cons_err (b0 b1 : Nat) (rest : List Nat)
    (t : Option ExtendedType) (e : Option String)
    (h : DeserializeType (b0 :: b1 :: rest) = .returned (t, e)) :
    e = none ∨ e = some "unknown type to deserialize" := by
  rw [DeserializeType_cons_cons] at h
  generalize b0 + b1 * 256 = k at h
  by_cases h3 : k = 3
  · rw [if_pos h3] at h; cases h; exact Or.inl rfl
  rw [if_neg h3] at h
  by_cases h4 : k = 4
  · rw [if_pos h4] at h; cases h; exact Or.inl rfl
  rw [if_neg h4] at h
  by_cases h21 : k = 21
  · rw [if_pos h21] at h; cases h; exact Or.inl rfl
  rw [if_neg h21] at h
  by_cases h23 : k = 23
  · rw [if_pos h23] at h; cases h; exact Or.inl rfl
  rw [if_neg h23] at h
  by_cases h27 : k = 27
  · rw [if_pos h27] at h; cases h; exact Or.inl rfl
  rw [if_neg h27] at h
  by_cases h29 : k = 29
  · rw [if_pos h29] at h; cases h; exact Or.inl rfl
  rw [if_neg h29] at h
  by_cases h33 : k = 33
  · rw [if_pos h33] at h; cases h; exact Or.inl rfl
  rw [if_neg h33] at h
  by_cases h53 : k = 53
  · rw [if_pos h53] at h; cases h; exact Or.inl rfl
  rw [if_neg h53] at h
  by_cases h54 : k = 54
  · rw [if_pos h54] at h; cases h; exact Or.inl rfl
  rw [if_neg h54] at h
  by_cases h86 : k = 86
  · rw [if_pos h86] at h
    cases hu : Uint32 rest with
    | returned n => rw [hu] at h; cases h; exact Or.inl rfl
    | panicked m => rw [hu] at h; cases h
  rw [if_neg h86] at h
  by_cases h82 : k = 82
  · rw [if_pos h82] at h; cases h; exact Or.inl rfl
  rw [if_neg h82] at h
  cases h
  exact Or.inr rfl

/-- The only inputs on which `DeserializeType` panics: those of length 2 to 5 that
start with the VarChar SerializationID. On every other input it returns. -/
theorem DeserializeType_panicked_iff (b : List Nat) :
    (∃ m, DeserializeType b = .panicked m) ↔
      (2 ≤ b.length ∧ b.length < 6 ∧ b.getD 0 0 + b.getD 1 0 * 256 = 86) := by
  match b with
  | [] => exact ⟨fun ⟨_, h⟩ => (by cases h), fun h => (by simp at h)⟩
  | [_] => exact ⟨fun ⟨_, h⟩ => (by cases h), fun h => (by simp at h)⟩
  | b0 :: b1 :: rest =>
    rw [DeserializeType_cons_cons]
    simp only [List.getD_cons_zero, List.getD_cons_succ, List.length_cons]
    generalize b0 + b1 * 256 = k
    by_cases h3 : k = 3
    · rw [if_pos h3]
      exact ⟨fun ⟨_, h⟩ => (by cases h), fun h => (by omega)⟩
    rw [if_neg h3]
    by_cases h4 : k = 4
    · rw [if_pos h4]
      exact ⟨fun ⟨_, h⟩ => (by cases h), fun h => (by omega)⟩
    rw [if_neg h4]
    by_cases h21 : k = 21
    · rw [if_pos h21]
      exact ⟨fun ⟨_, h⟩ => (by cases h), fun h => (by omega)⟩
    rw [if_neg h21]
    by_cases h23 : k = 23
    · rw [if_pos h23]
      exact ⟨fun ⟨_, h⟩ => (by cases h), fun h => (by omega)⟩
    rw [if_neg h23]
    by_cases h27 : k = 27
    · rw [if_pos h27]
      exact ⟨fun ⟨_, h⟩ => (by cases h), fun h => (by omega)⟩
    rw [if_neg h27]
    by_cases h29 : k = 29
    · rw [if_pos h29]
      exact ⟨fun ⟨_, h⟩ => (by cases h), fun h => (by omega)⟩
    rw [if_neg h29]
    by_cases h33 : k = 33
    · rw [if_pos h33]
      exact ⟨fun ⟨_, h⟩ => (by cases h), fun h => (by omega)⟩
    rw [if_neg h33]
    by_cases h53 : k = 53
    · rw [if_pos h53]
      exact ⟨fun ⟨_, h⟩ => (by cases h), fun h => (by omega)⟩
    rw [if_neg h53]
    by_cases h54 : k = 54
    · rw [if_pos h54]
      exact ⟨fun ⟨_, h⟩ => (by cases h), fun h => (by omega)⟩
    rw [if_neg h54]
    by_cases h86 : k = 86
    · rw [if_pos h86]
      rcases rest with _ | ⟨b2, _ | ⟨b3, _ | ⟨b4, _ | ⟨b5, rest⟩⟩⟩⟩
      · exact ⟨fun _ => ⟨by simp, by simp, h86⟩, fun _ => ⟨_, rfl⟩⟩
      · exact ⟨fun _ => ⟨by simp, by simp, h86⟩, fun _ => ⟨_, rfl⟩⟩
      · exact ⟨fun _ => ⟨by simp, by simp, h86⟩, fun _ => ⟨_, rfl⟩⟩
      · exact ⟨fun _ => ⟨by simp, by simp, h86⟩, fun _ => ⟨_, rfl⟩⟩
      · refine ⟨fun ⟨_, h⟩ => (by cases h), fun h => ?_⟩
        simp only [List.length_cons] at h
        omega
    rw [if_neg h86]
    by_cases h82 : k = 82
    · rw [if_pos h82]
      exact ⟨fun ⟨_, h⟩ => (by cases h), fun h => (by omega)⟩
    rw [if_neg h82]
    exact ⟨fun ⟨_, h⟩ => (by cases h), fun h => (by omega)⟩

/-- C4. On an input of length 0 or 1 `DeserializeType` returns no type and the error
"cannot deserialize an empty type"; on an input of length 2 or more it never returns
this error. -/
theorem DeserializeType_truncated (b : List Nat) :
    (b.length < 2 →
      DeserializeType b = .returned (none, some "cannot deserialize an empty type")) ∧
    (2 ≤ b.length → ∀ t : Option ExtendedType,
      DeserializeType b ≠ .returned (t, some "cannot deserialize an empty type")) := by
  constructor
  · intro h
    unfold DeserializeType
    rw [if_pos h]
    rfl
  · intro h t hret
    match b, h with
    | b0 :: b1 :: rest, _ =>
      rcases DeserializeType_cons_cons_err b0 b1 rest t _ hret with h1 | h1
      · cases h1
      · revert h1; decide

theorem DeserializeType_truncated_witness :
    DeserializeType [86] = .returned (none, some "cannot deserialize an empty type") ∧
    ∀ t : Option ExtendedType,
      DeserializeType [3, 0] ≠ .returned (t, some "cannot deserialize an empty type") :=
  ⟨(DeserializeType_truncated [86]).1 (by decide),
    (DeserializeType_truncated [3, 0]).2 (by decide)⟩

/-- C5. On an input of at least two bytes whose leading little-endian 16-bit value is
not one of the eleven IDs with a decoder, `DeserializeType` returns no type and the
error "unknown type to deserialize"; so it does for the reserved ID 0, for the ID of
Text (64) and for every value above 89. -/
theorem DeserializeType_unknown_id (b : List Nat) (hlen : 2 ≤ b.length) :
    (b.getD 0 0 + 256 * b.getD 1 0 ∉ registeredDecoderIDs →
      DeserializeType b = .returned (none, some "unknown type to deserialize")) ∧
    (b.getD 0 0 + 256 * b.getD 1 0 = SerializationID_Invalid ∨
      b.getD 0 0 + 256 * b.getD 1 0 = SerializationID_Text ∨
      SerializationID_XmlArray < b.getD 0 0 + 256 * b.getD 1 0 →
      DeserializeType b = .returned (none, some "unknown type to deserialize")) := by
  match b, hlen with
  | b0 :: b1 :: rest, _ =>
    have key : b0 + 256 * b1 ∉ registeredDecoderIDs →
        DeserializeType (b0 :: b1 :: rest) =
          .returned (none, some "unknown type to deserialize") := by
      intro hid
      simp only [registeredDecoderIDs, List.mem_cons, List.mem_singleton, List.not_mem_nil,
        or_false, not_or] at hid
      rw [DeserializeType_cons_cons]
      have e : b0 + b1 * 256 = b0 + 256 * b1 := by omega
      rw [e]
      simp only [hid, if_false]
    refine ⟨key, fun h => key ?_⟩
    simp only [List.getD_cons_zero, List.getD_cons_succ, SerializationID_Invalid,
      SerializationID_Text, SerializationID_XmlArray] at h
    intro hmem
    simp only [registeredDecoderIDs, List.mem_cons, List.mem_singleton, List.not_mem_nil,
      or_false] at hmem
    have h' : b0 + 256 * b1 = 0 ∨ b0 + 256 * b1 = 64 ∨ 89 < b0 + 256 * b1 := h
    omega

theorem DeserializeType_unknown_id_witness :
    DeserializeType [64, 0, 7] = .returned (none, some "unknown type to deserialize") ∧
    DeserializeType [90, 1] = .returned (none, some "unknown type to deserialize") :=
  ⟨(DeserializeType_unknown_id [64, 0, 7] (by decide)).1 (by decide),
    (DeserializeType_unknown_id [90, 1] (by decide)).2 (Or.inr (Or.inr (by decide)))⟩

/-- C6. For every type that `SerializeType` has no `case` for, it returns nil bytes and
the error "unknown type to serialize"; for every type it has a `case` for, it returns
bytes and no error. -/
theorem SerializeType_error_iff_unwired (t : ExtendedType) :
    (t.wired = false →
      SerializeType t = .returned (none, some "unknown type to serialize")) ∧
    (t.wired = true → ∃ b, SerializeType t = .returned (some b, none)) := by
  cases t <;> simp [ExtendedType.wired] <;> first | rfl | exact ⟨_, rfl⟩

theorem SerializeType_error_iff_unwired_witness :
    SerializeType (.Unwired "TextType") = .returned (none, some "unknown type to serialize") ∧
    ∃ b, SerializeType .UuidType = .returned (some b, none) :=
  ⟨(SerializeType_error_iff_unwired (.Unwired "TextType")).1 rfl,
    (SerializeType_error_iff_unwired .UuidType).2 rfl⟩

/-- Every call of `SerializeType` returns: bytes without an error, or nil bytes with
the unknown-type error. -/
theorem SerializeType_returns (t : ExtendedType) :
    (∃ b, SerializeType t = .returned (some b, none)) ∨
      SerializeType t = .returned (none, some "unknown type to serialize") := by
  cases t
  case Unwired => exact Or.inr rfl
  all_goals exact Or.inl ⟨_, rfl⟩

/-- The body of `MustSerializeType` when `SerializeType` returns a nil error. -/
theorem MustSerializeType_of_ok (t : ExtendedType) (bytes : Option (List Nat))
    (h : SerializeType t = .returned (bytes, none)) :
    MustSerializeType t = .returned bytes := by
  unfold MustSerializeType
  rw [h]
  rfl

/-- The body of `MustSerializeType` when `SerializeType` returns an error. -/
theorem MustSerializeType_of_err (t : ExtendedType) (bytes : Option (List Nat)) (e : String)
    (h : SerializeType t = .returned (bytes, some e)) :
    MustSerializeType t = .panicked e := by
  unfold MustSerializeType
  rw [h]
  rfl

/-- C7. `MustSerializeType` agrees with `SerializeType`: when `SerializeType` returns
bytes `b` and no error it returns exactly `b`; it panics with a message `e` if and only
if `SerializeType` returns the error `e`; and when `SerializeType` returns an error it
does not return. -/
theorem MustSerializeType_agrees (t : ExtendedType) :
    (∀ b, SerializeType t = .returned (some b, none) →
      MustSerializeType t = .returned (some b)) ∧
    (∀ e, MustSerializeType t = .panicked e ↔
      ∃ bytes, SerializeType t = .returned (bytes, some e)) ∧
    (∀ bytes e, SerializeType t = .returned (bytes, some e) →
      ∀ r, MustSerializeType t ≠ .returned r) := by
  refine ⟨?_, ?_, ?_⟩
  · intro b h
    exact MustSerializeType_of_ok t _ h
  · intro e
    constructor
    · intro hp
      rcases SerializeType_returns t with ⟨b, h⟩ | h
      · rw [MustSerializeType_of_ok t _ h] at hp
        cases hp
      · rw [MustSerializeType_of_err t _ _ h] at hp
        injection hp with hp
        exact ⟨none, by rw [h, hp]⟩
    · rintro ⟨bytes, h⟩
      exact MustSerializeType_of_err t _ _ h
  · intro bytes e h r hr
    rw [MustSerializeType_of_err t _ _ h] at hr
    cases hr

theorem MustSerializeType_agrees_witness :
    MustSerializeType (.VarCharType 300) = .returned (some [86, 0, 44, 1, 0, 0]) ∧
    (MustSerializeType (.Unwired "TextType") = .panicked "unknown type to serialize" ↔
      ∃ bytes, SerializeType (.Unwired "TextType") =
        .returned (bytes, some "unknown type to serialize")) ∧
    ∀ r, MustSerializeType (.Unwired "TextType") ≠ .returned r :=
  ⟨(MustSerializeType_agrees (.VarCharType 300)).1 [86, 0, 44, 1, 0, 0] rfl,
    (MustSerializeType_agrees (.Unwired "TextType")).2.1 "unknown type to serialize",
    (MustSerializeType_agrees (.Unwired "TextType")).2.2 none "unknown type to serialize" rfl⟩

end Doltgres

/-! ## Theorems: regclass input -/

namespace Doltgres

theorem isDigit_iff_toNat (c : Char) : c.isDigit = true ↔ 48 ≤ c.toNat ∧ c.toNat ≤ 57 := by
  simp only [Char.isDigit, Bool.and_eq_true, decide_eq_true_eq, ge_iff_le, Char.toNat]
  rfl

/-- The decimal value read so far never exceeds the value of the whole literal. -/
theorem le_foldl_digits (cs : List Char) (n : Nat) :
    n ≤ cs.foldl (fun n c => n * 10 + (c.toNat - '0'.toNat)) n := by
  induction cs generalizing n with
  | nil => exact Nat.le_refl _
  | cons c cs ih =>
    simp only [List.foldl_cons]
    exact Nat.le_trans (by omega) (ih _)

/-- On decimal digits whose value fits 32 bits, the loop of `ParseUint` returns that
value and no error. -/
theorem ParseUint_loop_digits (cs : List Char) (n : Nat)
    (hd : ∀ c ∈ cs, c.isDigit = true)
    (hv : cs.foldl (fun n c => n * 10 + (c.toNat - '0'.toNat)) n < 2 ^ 32) :
    ParseUint.loop ((2 ^ 64 - 1) / 10 + 1) (2 ^ 32 - 1) cs n =
      (cs.foldl (fun n c => n * 10 + (c.toNat - '0'.toNat)) n, none) := by
  induction cs generalizing n with
  | nil => rfl
  | cons c cs ih =>
    have hc := (isDigit_iff_toNat c).1 (hd c (List.mem_cons_self _ _))
    have h0 : '0'.toNat = 48 := rfl
    simp only [List.foldl_cons] at hv ⊢
    have hle := le_foldl_digits cs (n * 10 + (c.toNat - '0'.toNat))
    rw [h0] at hv hle ⊢
    have hstep := ih (n * 10 + (c.toNat - 48))
      (fun c' hc' => hd c' (List.mem_cons_of_mem _ hc')) (by rw [h0]; exact hv)
    rw [h0] at hstep
    have hn : n * 10 + (c.toNat - 48) < 2 ^ 32 := Nat.lt_of_le_of_lt hle hv
    have e1 : n * 10 % 2 ^ 64 = n * 10 := Nat.mod_eq_of_lt (by omega)
    have e2 : (n * 10 + (c.toNat - 48)) % 2 ^ 64 = n * 10 + (c.toNat - 48) :=
      Nat.mod_eq_of_lt (by omega)
    rw [ParseUint.loop, if_pos hc, if_neg (by omega)]
    simp only [e1, e2]
    rw [if_neg (by omega)]
    exact hstep

/-- A decimal literal whose value fits 32 bits parses to its value, without error. -/
theorem ParseUint_of_toNat? (input : String) (n : Nat)
    (hlit : input.toNat? = some n) (hn : n < 2 ^ 32) :
    ParseUint input 32 = (n, none) := by
  unfold String.toNat? at hlit
  split at hlit
  next hnat =>
    simp only [String.isNat, Bool.and_eq_true, Bool.not_eq_true', String.all_eq,
      List.all_eq_true] at hnat
    have hne : ¬ input = "" := by
      intro h
      have := (String.isEmpty_iff input).2 h
      rw [hnat.1] at this
      cases this
    injection hlit with hval
    rw [String.foldl_eq] at hval
    unfold ParseUint
    rw [if_neg hne]
    have := ParseUint_loop_digits input.1 0 hnat.2 (by rw [hval]; exact hn)
    rw [hval] at this
    exact this
  next => cases hlit

/-- C8. Numeric fast path: for every input that is a base-10 unsigned integer literal
of value `n` below 2^32, `regclass_IoInput` returns the OID `n` and no error, whatever
the context and the catalog answer, and consults none of them (no current database,
search path or catalog traversal). -/
theorem regclass_IoInput_numeric (ctx : Context)
    (ioInputSections : String → List String × Option String) (input : String) (n : Nat)
    (hlit : input.toNat? = some n) (hn : n < 2 ^ 32) :
    regclass_IoInput ctx ioInputSections input = ⟨n, none, []⟩ := by
  unfold regclass_IoInput
  rw [ParseUint_of_toNat? input n hlit hn]
  simp only [Nat.mod_eq_of_lt hn]

theorem regclass_IoInput_numeric_witness :
    regclass_IoInput
      { GetCurrentDatabase := "postgres"
        SearchPath := (["public"], none)
        GetCurrentSchemasAsMap := (["public"], none)
        enumeration := fun _ _ => [.item (.Table ⟨1, "public"⟩ ⟨77, "12345"⟩)]
        lookup := fun _ => (none, none) }
      (fun s => ([s], none)) "12345" = ⟨12345, none, []⟩ :=
  regclass_IoInput_numeric _ _ "12345" 12345
    (by
      simp [String.toNat?, String.isNat, String.all_eq, String.foldl_eq, String.isEmpty]
      decide)
    (by decide)

/-- C9. Accepted shapes: `regclass_IoInputValidation` returns no error if and only if
the section list has exactly 1 section, or 3 sections with "." as section 1, or 5
sections with "." as sections 1 and 3; on every other list it returns an error. -/
theorem regclass_IoInputValidation_accepts_iff (input : String) (sections : List String) :
    regclass_IoInputValidation input sections = none ↔ acceptedShape sections := by
  unfold acceptedShape
  rcases sections with _ | ⟨s0, _ | ⟨s1, _ | ⟨s2, _ | ⟨s3, _ | ⟨s4, _ | ⟨s5, _ | ⟨s6, _ |
    ⟨s7, rest⟩⟩⟩⟩⟩⟩⟩⟩ <;> simp [regclass_IoInputValidation]
  · split_ifs <;> simp

/-- The two syntax errors differ, whatever the input. -/
theorem tooManyDottedNames_message_ne (input : String) :
    "improper qualified name (too many dotted names): " ++ input ≠ "invalid name syntax" := by
  intro h
  have hlen := congrArg String.length h
  rw [String.length_append] at hlen
  have h1 : ("improper qualified name (too many dotted names): ").length = 49 := by decide
  have h2 : ("invalid name syntax").length = 19 := by decide
  omega

/-- C10. The too-many-names error is distinct from the generic syntax error: on seven
sections with "." at positions 1, 3 and 5 the validation fails with "improper qualified
name (too many dotted names): " followed by the input; on every other rejected section
list it fails with "invalid name syntax"; and the two errors are never equal. -/
theorem regclass_IoInputValidation_errors (input : String) (sections : List String) :
    (tooManyDottedNames sections →
      regclass_IoInputValidation input sections =
        some ("improper qualified name (too many dotted names): " ++ input)) ∧
    (¬ tooManyDottedNames sections → ¬ acceptedShape sections →
      regclass_IoInputValidation input sections = some "invalid name syntax") ∧
    "improper qualified name (too many dotted names): " ++ input ≠ "invalid name syntax" := by
  refine ⟨?_, ?_, tooManyDottedNames_message_ne input⟩
  · unfold tooManyDottedNames
    rcases sections with _ | ⟨s0, _ | ⟨s1, _ | ⟨s2, _ | ⟨s3, _ | ⟨s4, _ | ⟨s5, _ | ⟨s6, _ |
      ⟨s7, rest⟩⟩⟩⟩⟩⟩⟩⟩ <;> simp [regclass_IoInputValidation]
    intro h1 h3 h5
    simp [h1, h3, h5]
  · unfold tooManyDottedNames acceptedShape
    rcases sections with _ | ⟨s0, _ | ⟨s1, _ | ⟨s2, _ | ⟨s3, _ | ⟨s4, _ | ⟨s5, _ | ⟨s6, _ |
      ⟨s7, rest⟩⟩⟩⟩⟩⟩⟩⟩ <;> simp [regclass_IoInputValidation]
    · intro h1 h3 h5
      by_cases e1 : s1 = "." <;> by_cases e3 : s3 = "." <;> simp_all

theorem regclass_IoInputValidation_errors_witness :
    regclass_IoInputValidation "a.b.c.d.e.f.g" ["a", ".", "b", ".", "c", ".", "d"] =
      some ("improper qualified name (too many dotted names): " ++ "a.b.c.d.e.f.g") ∧
    regclass_IoInputValidation "a..b" ["a", ".", ".", "b"] = some "invalid name syntax" ∧
    regclass_IoInputValidation "a.b.c.d" ["a", "/", "b", ".", "c", ".", "d"] =
      some "invalid name syntax" :=
  ⟨(regclass_IoInputValidation_errors "a.b.c.d.e.f.g"
      ["a", ".", "b", ".", "c", ".", "d"]).1 (by decide),
    (regclass_IoInputValidation_errors "a..b" ["a", ".", ".", "b"]).2.1
      (by decide) (by decide),
    (regclass_IoInputValidation_errors "a.b.c.d" ["a", "/", "b", ".", "c", ".", "d"]).2.1
      (by decide) (by decide)⟩

end Doltgres

/-! ## Theorems: regclass name lookup -/

namespace Doltgres

/-- C11 as stated fails: the section list of "a..b" is rejected with the generic error
"invalid name syntax", a message that does not contain the input "a..b". -/
theorem regclass_IoInputValidation_generic_error_omits_input :
    regclass_IoInputValidation "a..b" ["a", ".", ".", "b"] = some "invalid name syntax" ∧
    ¬ messageContains "invalid name syntax" "a..b" := by
  decide

/-- The two errors of `regclass_IoInputValidation` and the section lists they are for. -/
theorem regclass_IoInputValidation_rejected (input : String) (sections : List String)
    (e : String) (hrej : regclass_IoInputValidation input sections = some e) :
    (tooManyDottedNames sections ∧
      e = "improper qualified name (too many dotted names): " ++ input) ∨
    (¬ tooManyDottedNames sections ∧ e = "invalid name syntax") := by
  unfold tooManyDottedNames
  rcases sections with _ | ⟨s0, _ | ⟨s1, _ | ⟨s2, _ | ⟨s3, _ | ⟨s4, _ | ⟨s5, _ | ⟨s6, _ |
    ⟨s7, rest⟩⟩⟩⟩⟩⟩⟩⟩ <;> simp [regclass_IoInputValidation] at hrej ⊢
  all_goals first
    | exact hrej.symm
    | skip
  · by_cases h1 : s1 = "."
    · simp [h1] at hrej
    · simp [h1] at hrej
      exact hrej.symm
  · by_cases h1 : s1 = "." <;> by_cases h3 : s3 = "." <;> simp [h1, h3] at hrej ⊢ <;>
      exact hrej.symm
  · by_cases h1 : s1 = "." <;> by_cases h3 : s3 = "." <;> by_cases h5 : s5 = "." <;>
      simp [h1, h3, h5] at hrej ⊢ <;> exact hrej.symm

/-- C11, amended. A rejected section list of seven sections with "." at positions 1, 3
and 5 fails with a message that contains the original input; every other rejected
section list fails with the fixed message "invalid name syntax", whatever the input. -/
theorem regclass_IoInputValidation_error_message (input : String) (sections : List String)
    (e : String) (hrej : regclass_IoInputValidation input sections = some e) :
    (tooManyDottedNames sections → messageContains e input) ∧
    (¬ tooManyDottedNames sections → e = "invalid name syntax") := by
  rcases regclass_IoInputValidation_rejected input sections e hrej with ⟨h7, he⟩ | ⟨h7, he⟩
  · refine ⟨fun _ => ?_, fun h => absurd h7 h⟩
    rw [he]
    exact ⟨("improper qualified name (too many dotted names): ").toList, [], by simp⟩
  · exact ⟨fun h => absurd h h7, fun _ => he⟩

theorem regclass_IoInputValidation_error_message_witness :
    messageContains "improper qualified name (too many dotted names): a.b.c.d" "a.b.c.d" ∧
    ("invalid name syntax" = "invalid name syntax") :=
  ⟨(regclass_IoInputValidation_error_message "a.b.c.d" ["a", ".", "b", ".", "c", ".", "d"]
      "improper qualified name (too many dotted names): a.b.c.d" (by decide)).1 (by decide),
    (regclass_IoInputValidation_error_message "a..b" ["a", ".", ".", "b"]
      "invalid name syntax" (by decide)).2 (by decide)⟩

/-- The one-section case of `regclass_IoInput` for an input that is not a number. -/
theorem regclass_IoInput_one_section (ctx : Context)
    (ioInputSections : String → List String × Option String) (input s0 : String)
    (hnum : (ParseUint input 32).2 ≠ none)
    (hsec : ioInputSections input = ([s0], none)) :
    regclass_IoInput ctx ioInputSections input =
      match ctx.SearchPath with
      | (_, some err) => ⟨0, some err, [.GetCurrentDatabase, .SearchPath]⟩
      | (searchSchemas, none) =>
        regclass_IoInput.resolve ctx input ctx.GetCurrentDatabase searchSchemas s0
          [.GetCurrentDatabase, .SearchPath] := by
  unfold regclass_IoInput
  rcases hp : ParseUint input 32 with ⟨v, _ | e⟩
  · rw [hp] at hnum
    exact absurd rfl hnum
  · simp only [hsec, regclass_IoInputValidation]

/-- The three-section case of `regclass_IoInput` for an input that is not a number. -/
theorem regclass_IoInput_three_sections (ctx : Context)
    (ioInputSections : String → List String × Option String) (input s0 s1 s2 : String)
    (hnum : (ParseUint input 32).2 ≠ none)
    (hsec : ioInputSections input = ([s0, s1, s2], none))
    (hvalid : regclass_IoInputValidation input [s0, s1, s2] = none) :
    regclass_IoInput ctx ioInputSections input =
      regclass_IoInput.resolve ctx input ctx.GetCurrentDatabase [s0] s2
        [.GetCurrentDatabase] := by
  unfold regclass_IoInput
  rcases hp : ParseUint input 32 with ⟨v, _ | e⟩
  · rw [hp] at hnum
    exact absurd rfl hnum
  · simp only [hsec, hvalid]

/-- The five-section case of `regclass_IoInput` for an input that is not a number. -/
theorem regclass_IoInput_five_sections (ctx : Context)
    (ioInputSections : String → List String × Option String) (input s0 s1 s2 s3 s4 : String)
    (hnum : (ParseUint input 32).2 ≠ none)
    (hsec : ioInputSections input = ([s0, s1, s2, s3, s4], none))
    (hvalid : regclass_IoInputValidation input [s0, s1, s2, s3, s4] = none) :
    regclass_IoInput ctx ioInputSections input =
      regclass_IoInput.resolve ctx input s0 [s2] s4 [] := by
  unfold regclass_IoInput
  rcases hp : ParseUint input 32 with ⟨v, _ | e⟩
  · rw [hp] at hnum
    exact absurd rfl hnum
  · simp only [hsec, hvalid]

/-- What each visitor of `regclass_IoInput` does with an item: on a match it stores the
OID of the item and signals stop, otherwise it leaves `resultOid` and continues. -/
theorem regclass_IoInput_callbacks_invoke (relationName : String)
    (searchSchemas : List String) (i : CatalogItem) (resultOid : Nat) :
    (regclass_IoInput.callbacks relationName searchSchemas).invoke i resultOid =
      if i.matchName = relationName then (i.OID, false, none)
      else (resultOid, true, none) := by
  cases i with
  | Index schema table index =>
    simp only [Callbacks.invoke, regclass_IoInput.callbacks, CatalogItem.matchName,
      CatalogItem.OID]
    by_cases h : relationName = if index.ID = "PRIMARY" then index.Table ++ "_pkey"
        else index.ID
    · rw [if_pos h, if_pos h.symm]
    · rw [if_neg h, if_neg (fun h' => h h'.symm)]
  | Sequence schema sequence => rfl
  | Table schema table => rfl
  | View schema view => rfl

/-- The traversal with the visitors of `regclass_IoInput` over a listing without
errors: it ends at the first item that matches, with the OID of that item. -/
theorem regclass_IoInput_run_items (relationName : String) (searchSchemas : List String)
    (items : List CatalogItem) (resultOid : Nat) :
    IterateDatabase.run (regclass_IoInput.callbacks relationName searchSchemas)
        (items.map EnumStep.item) resultOid =
      match items.find? (fun i => i.matchName = relationName) with
      | some i => (i.OID, none)
      | none => (resultOid, none) := by
  induction items with
  | nil => rfl
  | cons i rest ih =>
    simp only [List.map_cons, IterateDatabase.run, regclass_IoInput_callbacks_invoke,
      List.find?_cons]
    by_cases h : i.matchName = relationName
    · simp only [h, if_true, decide_True]
    · simp only [h, if_false, decide_False]
      exact ih

/-- For an input that is not a number, whose sections pass validation and have a
scope, `regclass_IoInput` is the traversal of that scope. -/
theorem regclass_IoInput_eq_resolve (ctx : Context)
    (ioInputSections : String → List String × Option String) (input : String)
    (sections : List String) (database : String) (searchSchemas : List String)
    (relationName : String)
    (hnum : (ParseUint input 32).2 ≠ none)
    (hsec : ioInputSections input = (sections, none))
    (hvalid : regclass_IoInputValidation input sections = none)
    (hscope : lookupScope ctx sections = some (database, searchSchemas, relationName)) :
    ∃ calls, regclass_IoInput ctx ioInputSections input =
      regclass_IoInput.resolve ctx input database searchSchemas relationName calls := by
  rcases sections with _ | ⟨s0, _ | ⟨s1, _ | ⟨s2, _ | ⟨s3, _ | ⟨s4, _ | ⟨s5, rest⟩⟩⟩⟩⟩⟩
  · simp [lookupScope] at hscope
  · have h := regclass_IoInput_one_section ctx ioInputSections input s0 hnum hsec
    rcases hp : ctx.SearchPath with ⟨searchPath, _ | e⟩
    · simp only [lookupScope, hp, Option.some.injEq, Prod.mk.injEq] at hscope
      simp only [hp] at h
      obtain ⟨h1, h2, h3⟩ := hscope
      subst h1 h2 h3
      exact ⟨_, h⟩
    · simp [lookupScope, hp] at hscope
  · simp [lookupScope] at hscope
  · simp only [lookupScope, Option.some.injEq, Prod.mk.injEq] at hscope
    obtain ⟨h1, h2, h3⟩ := hscope
    subst h1 h2 h3
    exact ⟨_, regclass_IoInput_three_sections ctx ioInputSections input s0 s1 s2 hnum hsec
      hvalid⟩
  · simp [lookupScope] at hscope
  · simp only [lookupScope, Option.some.injEq, Prod.mk.injEq] at hscope
    obtain ⟨h1, h2, h3⟩ := hscope
    subst h1 h2 h3
    exact ⟨_, regclass_IoInput_five_sections ctx ioInputSections input s0 s1 s2 s3 s4 hnum
      hsec hvalid⟩
  · simp [lookupScope] at hscope

/-- The result of the traversal part of `regclass_IoInput`, from what `IterateDatabase`
returned. -/
theorem regclass_IoInput_resolve_of_iterate (ctx : Context) (input database : String)
    (searchSchemas : List String) (relationName : String) (calls : List Call)
    (resultOid : Nat) (err : Option String)
    (hit : IterateDatabase ctx database
      (regclass_IoInput.callbacks relationName searchSchemas) 0 = (resultOid, err)) :
    (regclass_IoInput.resolve ctx input database searchSchemas relationName calls).oid =
        (if err ≠ none ∨ resultOid ≠ 0 then resultOid else 0) ∧
    (regclass_IoInput.resolve ctx input database searchSchemas relationName calls).err =
        (if err ≠ none ∨ resultOid ≠ 0 then err
          else some ("relation \"" ++ input ++ "\" does not exist")) := by
  unfold regclass_IoInput.resolve
  simp only [hit]
  split <;> exact ⟨rfl, rfl⟩

/-- C13. First match wins, otherwise NotFound. For an input that is not a number, whose
sections pass validation, over a listing without errors in which every item has a
non-zero OID: when some enumerated item matches the relation name (a table, view or
sequence by its name, an index by its match name), `regclass_IoInput` returns the OID of
the first such item in enumeration order and no error; when none matches it returns OID 0
and the error `relation "<input>" does not exist`; and each visitor signals stop exactly
on a match. -/
theorem regclass_IoInput_first_match (ctx : Context)
    (ioInputSections : String → List String × Option String) (input : String)
    (sections : List String) (database : String) (searchSchemas : List String)
    (relationName : String) (items : List CatalogItem)
    (hnum : (ParseUint input 32).2 ≠ none)
    (hsec : ioInputSections input = (sections, none))
    (hvalid : regclass_IoInputValidation input sections = none)
    (hscope : lookupScope ctx sections = some (database, searchSchemas, relationName))
    (henum : ctx.enumeration database searchSchemas = items.map EnumStep.item)
    (hoid : ∀ i ∈ items, i.OID ≠ 0) :
    (∀ i, items.find? (fun i => i.matchName = relationName) = some i →
      (regclass_IoInput ctx ioInputSections input).oid = i.OID ∧
      (regclass_IoInput ctx ioInputSections input).err = none) ∧
    (items.find? (fun i => i.matchName = relationName) = none →
      (regclass_IoInput ctx ioInputSections input).oid = 0 ∧
      (regclass_IoInput ctx ioInputSections input).err =
        some ("relation \"" ++ input ++ "\" does not exist")) ∧
    (∀ i resultOid,
      ((regclass_IoInput.callbacks relationName searchSchemas).invoke i resultOid).2.1 = false
        ↔ i.matchName = relationName) := by
  obtain ⟨calls, hres⟩ := regclass_IoInput_eq_resolve ctx ioInputSections input sections
    database searchSchemas relationName hnum hsec hvalid hscope
  have hrun := regclass_IoInput_run_items relationName searchSchemas items 0
  refine ⟨?_, ?_, ?_⟩
  · intro i hfind
    rw [hfind] at hrun
    have hit : IterateDatabase ctx database
        (regclass_IoInput.callbacks relationName searchSchemas) 0 = (i.OID, none) := by
      unfold IterateDatabase
      show IterateDatabase.run _ (ctx.enumeration database searchSchemas) 0 = _
      rw [henum]
      exact hrun
    have hne : i.OID ≠ 0 := hoid i (List.mem_of_find?_eq_some hfind)
    have h := regclass_IoInput_resolve_of_iterate ctx input database searchSchemas
      relationName calls _ _ hit
    rw [hres]
    rw [if_pos (Or.inr hne), if_pos (Or.inr hne)] at h
    exact h
  · intro hfind
    rw [hfind] at hrun
    have hit : IterateDatabase ctx database
        (regclass_IoInput.callbacks relationName searchSchemas) 0 = (0, none) := by
      unfold IterateDatabase
      show IterateDatabase.run _ (ctx.enumeration database searchSchemas) 0 = _
      rw [henum]
      exact hrun
    have h := regclass_IoInput_resolve_of_iterate ctx input database searchSchemas
      relationName calls _ _ hit
    rw [hres]
    rw [if_neg (by simp), if_neg (by simp)] at h
    exact h
  · intro i resultOid
    rw [regclass_IoInput_callbacks_invoke]
    by_cases h : i.matchName = relationName
    · simp [h]
    · simp [h]

theorem regclass_IoInput_first_match_witness :
    ((regclass_IoInput sampleContext sampleSections "orders").oid = 77 ∧
      (regclass_IoInput sampleContext sampleSections "orders").err = none) ∧
    ((regclass_IoInput sampleContext sampleSections "missing").oid = 0 ∧
      (regclass_IoInput sampleContext sampleSections "missing").err =
        some ("relation \"" ++ "missing" ++ "\" does not exist")) :=
  ⟨(regclass_IoInput_first_match sampleContext sampleSections "orders" ["orders"]
      "postgres" ["public"] "orders"
      [.Table ⟨1, "public"⟩ ⟨77, "orders"⟩,
       .Index ⟨1, "public"⟩ ⟨77, "orders"⟩ ⟨78, "PRIMARY", "orders"⟩,
       .Index ⟨1, "public"⟩ ⟨77, "orders"⟩ ⟨79, "orders_idx", "orders"⟩,
       .View ⟨1, "public"⟩ ⟨80, "orders"⟩]
      (by decide) (by decide) (by decide) (by decide) (by decide) (by decide)).1
      (.Table ⟨1, "public"⟩ ⟨77, "orders"⟩) (by decide),
    (regclass_IoInput_first_match sampleContext sampleSections "missing" ["missing"]
      "postgres" ["public"] "missing"
      [.Table ⟨1, "public"⟩ ⟨77, "orders"⟩,
       .Index ⟨1, "public"⟩ ⟨77, "orders"⟩ ⟨78, "PRIMARY", "orders"⟩,
       .Index ⟨1, "public"⟩ ⟨77, "orders"⟩ ⟨79, "orders_idx", "orders"⟩,
       .View ⟨1, "public"⟩ ⟨80, "orders"⟩]
      (by decide) (by decide) (by decide) (by decide) (by decide) (by decide)).2.1
      (by decide)⟩

/-- No name that ends in "_pkey" is the identifier "PRIMARY". -/
theorem append_pkey_ne_PRIMARY (name : String) : name ++ "_pkey" ≠ "PRIMARY" := by
  intro h
  have h2 := congrArg (fun s : String => s.data.getLast?) h
  simp only [String.data_append] at h2
  rw [List.getLast?_append_of_ne_nil _ (by decide)] at h2
  revert h2
  decide

/-- C14. Primary-key synthetic naming on input. The index visitor of `regclass_IoInput`
matches (stores the OID of the index and signals stop) an implicit primary-key index,
identifier "PRIMARY", on table T exactly when the relation name is T followed by
"_pkey", so never for the name "PRIMARY"; it matches every other index exactly when the
relation name is the identifier of the index. Without a match it leaves `resultOid` and
continues. -/
theorem regclass_IoInput_index_visitor (relationName : String) (searchSchemas : List String)
    (schema : ItemSchema) (table : ItemTable) (index : ItemIndex) (resultOid : Nat) :
    (index.ID = "PRIMARY" →
      (regclass_IoInput.callbacks relationName searchSchemas).invoke
          (.Index schema table index) resultOid =
        if relationName = index.Table ++ "_pkey" then (index.OID, false, none)
        else (resultOid, true, none)) ∧
    (index.ID = "PRIMARY" → relationName = "PRIMARY" →
      (regclass_IoInput.callbacks relationName searchSchemas).invoke
          (.Index schema table index) resultOid = (resultOid, true, none)) ∧
    (index.ID ≠ "PRIMARY" →
      (regclass_IoInput.callbacks relationName searchSchemas).invoke
          (.Index schema table index) resultOid =
        if relationName = index.ID then (index.OID, false, none)
        else (resultOid, true, none)) := by
  refine ⟨?_, ?_, ?_⟩
  · intro hp
    simp only [Callbacks.invoke, regclass_IoInput.callbacks, hp, if_true]
  · intro hp hrel
    simp only [Callbacks.invoke, regclass_IoInput.callbacks, hp, if_true]
    rw [if_neg]
    rw [hrel]
    exact fun h => append_pkey_ne_PRIMARY _ h.symm
  · intro hp
    simp only [Callbacks.invoke, regclass_IoInput.callbacks, hp, if_false]

theorem regclass_IoInput_index_visitor_witness :
    (regclass_IoInput.callbacks "orders_pkey" ["public"]).invoke
        (.Index ⟨1, "public"⟩ ⟨77, "orders"⟩ ⟨78, "PRIMARY", "orders"⟩) 0 =
      (78, false, none) ∧
    (regclass_IoInput.callbacks "PRIMARY" ["public"]).invoke
        (.Index ⟨1, "public"⟩ ⟨77, "orders"⟩ ⟨78, "PRIMARY", "orders"⟩) 0 =
      (0, true, none) ∧
    (regclass_IoInput.callbacks "orders_idx" ["public"]).invoke
        (.Index ⟨1, "public"⟩ ⟨77, "orders"⟩ ⟨79, "orders_idx", "orders"⟩) 0 =
      (79, false, none) ∧
    regclass_IoInput sampleContext sampleSections "orders_pkey" =
      ⟨78, none, [.GetCurrentDatabase, .SearchPath, .IterateDatabase "postgres" ["public"]]⟩ :=
  ⟨((regclass_IoInput_index_visitor "orders_pkey" ["public"] ⟨1, "public"⟩ ⟨77, "orders"⟩
      ⟨78, "PRIMARY", "orders"⟩ 0).1 rfl).trans (by decide),
    (regclass_IoInput_index_visitor "PRIMARY" ["public"] ⟨1, "public"⟩ ⟨77, "orders"⟩
      ⟨78, "PRIMARY", "orders"⟩ 0).2.1 rfl rfl,
    ((regclass_IoInput_index_visitor "orders_idx" ["public"] ⟨1, "public"⟩ ⟨77, "orders"⟩
      ⟨79, "orders_idx", "orders"⟩ 0).2.2 (by decide)).trans (by decide),
    by decide⟩

end Doltgres

/-! ## Theorems: regclass output -/

namespace Doltgres

/-- Digits written by `Nat.toDigitsCore` with enough fuel: they are put in front of the
digits already there, there is at least one, they are digits of the base, they stand
for the number, and the first is not the zero digit unless the number is zero. -/
theorem toDigitsCore_spec (b : Nat) (hb : 2 ≤ b) (val : Char → Nat)
    (hval : ∀ k, k < b → val (Nat.digitChar k) = k) :
    ∀ (fuel n : Nat) (ds : List Char), n < fuel →
      ∃ l, Nat.toDigitsCore b fuel n ds = l ++ ds ∧ l ≠ [] ∧
        l.foldl (fun a c => a * b + val c) 0 = n ∧
        (∀ c ∈ l, ∃ k, k < b ∧ c = Nat.digitChar k) ∧
        (n ≠ 0 → ∃ k, 0 < k ∧ k < b ∧ l.head? = some (Nat.digitChar k)) := by
  intro fuel
  induction fuel with
  | zero => intro n ds hn; omega
  | succ fuel ih =>
    intro n ds hn
    have hmod : n % b < b := Nat.mod_lt _ (by omega)
    have hdm : b * (n / b) + n % b = n := Nat.div_add_mod n b
    simp only [Nat.toDigitsCore]
    by_cases h0 : n / b = 0
    · rw [if_pos h0]
      have hn' : n % b = n := by rw [h0] at hdm; simpa using hdm
      refine ⟨[Nat.digitChar (n % b)], rfl, by simp, ?_, ?_, ?_⟩
      · simp only [List.foldl_cons, List.foldl_nil, hval _ hmod]
        omega
      · intro c hc
        simp only [List.mem_singleton] at hc
        exact ⟨n % b, hmod, hc⟩
      · intro hne
        exact ⟨n % b, by omega, hmod, rfl⟩
    · rw [if_neg h0]
      have hpos : 0 < n := by
        rcases Nat.eq_zero_or_pos n with h | h
        · rw [h] at h0; simp at h0
        · exact h
      have hlt : n / b < fuel := by
        have := Nat.div_lt_self hpos (show 1 < b by omega)
        omega
      obtain ⟨l, hl, hne, hfold, hdig, hhead⟩ := ih (n / b) (Nat.digitChar (n % b) :: ds) hlt
      refine ⟨l ++ [Nat.digitChar (n % b)], ?_, by simp, ?_, ?_, ?_⟩
      · rw [hl]; simp
      · rw [List.foldl_append, hfold]
        simp only [List.foldl_cons, List.foldl_nil, hval _ hmod]
        rw [Nat.mul_comm]
        exact hdm
      · intro c hc
        rcases List.mem_append.1 hc with h | h
        · exact hdig c h
        · simp only [List.mem_singleton] at h
          exact ⟨n % b, hmod, h⟩
      · intro _
        obtain ⟨k, hk0, hkb, hk⟩ := hhead h0
        refine ⟨k, hk0, hkb, ?_⟩
        cases l with
        | nil => exact absurd rfl hne
        | cons c rest => simpa using hk

/-- The decimal digits `FormatUint` writes: at least one, all of them decimal digits (so
no sign), their value is the number, and no leading zero unless the number is zero. -/
theorem FormatUint_decimal (i : Nat) :
    (FormatUint i).toList ≠ [] ∧ (∀ c ∈ (FormatUint i).toList, c.isDigit = true) ∧
    decimalValue (FormatUint i).toList = i ∧
    (i ≠ 0 → (FormatUint i).toList.head? ≠ some '0') := by
  obtain ⟨l, hl, hne, hfold, hdig, hhead⟩ :=
    toDigitsCore_spec 10 (by decide) (fun c => c.toNat - 48) (by decide) (i + 1) i []
      (Nat.lt_succ_self i)
  have hrepr : (FormatUint i).toList = l := by
    show (Nat.toDigits 10 i) = l
    unfold Nat.toDigits
    rw [hl, List.append_nil]
  rw [hrepr]
  refine ⟨hne, ?_, hfold, ?_⟩
  · intro c hc
    obtain ⟨k, hk, rfl⟩ := hdig c hc
    have hd : ∀ k, k < 10 → (Nat.digitChar k).isDigit = true := by decide
    exact hd k hk
  · intro h0 hh
    obtain ⟨k, hk0, hk, hk'⟩ := hhead h0
    rw [hk'] at hh
    injection hh with hh
    have hz : ∀ k, k < 10 → 0 < k → Nat.digitChar k ≠ '0' := by decide
    exact hz k hk hk0 hh

/-- C15. Unresolvable OID renders as a number: when the current-schemas lookup succeeds
and the single-target traversal finds no item for the OID (no visitor is invoked, no
error), `regclass_IoOutput` returns the decimal string of the OID and no error; that
string is made of decimal digits only, stands for the OID, and has no leading zero
unless the OID is zero. -/
theorem regclass_IoOutput_unresolved (ctx : Context) (oid : Nat) (schemas : List String)
    (hmap : ctx.GetCurrentSchemasAsMap = (schemas, none))
    (hlookup : ctx.lookup oid = (none, none)) :
    regclass_IoOutput ctx oid =
      ⟨FormatUint oid, none, [.GetCurrentSchemasAsMap, .RunCallback oid]⟩ ∧
    (FormatUint oid).toList ≠ [] ∧ (∀ c ∈ (FormatUint oid).toList, c.isDigit = true) ∧
    decimalValue (FormatUint oid).toList = oid ∧
    (oid ≠ 0 → (FormatUint oid).toList.head? ≠ some '0') := by
  refine ⟨?_, FormatUint_decimal oid⟩
  unfold regclass_IoOutput RunCallback
  simp only [hmap, hlookup]

theorem regclass_IoOutput_unresolved_witness :
    regclass_IoOutput sampleContext 12345 =
      ⟨"12345", none, [.GetCurrentSchemasAsMap, .RunCallback 12345]⟩ :=
  (regclass_IoOutput_unresolved sampleContext 12345 ["public"] rfl (by decide)).1.trans
    (by decide)

/-- When the current-schemas lookup succeeds and the single-target traversal finds an
item, `regclass_IoOutput` returns what the visitor of that item leaves in `output`. -/
theorem regclass_IoOutput_of_item (ctx : Context) (oid : Nat) (schemas : List String)
    (i : CatalogItem)
    (hmap : ctx.GetCurrentSchemasAsMap = (schemas, none))
    (hlookup : ctx.lookup oid = (some i, none)) :
    regclass_IoOutput ctx oid =
      ⟨((regclass_IoOutput.callbacks ("pg_catalog" :: schemas)).invoke i (FormatUint oid)).1,
        ((regclass_IoOutput.callbacks ("pg_catalog" :: schemas)).invoke i
          (FormatUint oid)).2.2,
        [.GetCurrentSchemasAsMap, .RunCallback oid]⟩ := by
  unfold regclass_IoOutput RunCallback
  simp only [hmap, hlookup]

/-- The key set of `schemasMap` after `pg_catalog` is added is the set of schemas in
scope. -/
theorem mem_schemasMap_iff (schemas : List String) (schemaName : String) :
    schemaName ∈ "pg_catalog" :: schemas ↔ inScope schemas schemaName := by
  unfold inScope
  rw [List.mem_cons]
  exact Or.comm

/-- C16. Qualification rule for tables, sequences and views: when the OID resolves to a
table, sequence or view named N owned by schema S, `regclass_IoOutput` returns N if S is
in scope (on the search path, or `pg_catalog`) and S, ".", N otherwise, without error;
an item owned by `pg_catalog` renders as its bare name for every search path. -/
theorem regclass_IoOutput_relation (ctx : Context) (oid : Nat) (schemas : List String)
    (i : CatalogItem)
    (hmap : ctx.GetCurrentSchemasAsMap = (schemas, none))
    (hlookup : ctx.lookup oid = (some i, none))
    (hkind : i.isIndex = false) :
    (regclass_IoOutput ctx oid).err = none ∧
    (inScope schemas i.schema.SchemaName → (regclass_IoOutput ctx oid).output = i.name) ∧
    (¬ inScope schemas i.schema.SchemaName →
      (regclass_IoOutput ctx oid).output = i.schema.SchemaName ++ "." ++ i.name) ∧
    (i.schema.SchemaName = "pg_catalog" → (regclass_IoOutput ctx oid).output = i.name) := by
  rw [regclass_IoOutput_of_item ctx oid schemas i hmap hlookup]
  have key : ∀ p : Prop, (inScope schemas i.schema.SchemaName → p) →
      (i.schema.SchemaName = "pg_catalog" → p) := fun p h e => h (Or.inr e)
  cases i with
  | Index schema table index => cases hkind
  | Sequence schema sequence =>
    simp only [Callbacks.invoke, regclass_IoOutput.callbacks, mem_schemasMap_iff,
      CatalogItem.schema, CatalogItem.name] at key ⊢
    refine ⟨by split <;> rfl, fun h => by rw [if_pos h], fun h => by rw [if_neg h],
      key _ (fun h => by rw [if_pos h])⟩
  | Table schema table =>
    simp only [Callbacks.invoke, regclass_IoOutput.callbacks, mem_schemasMap_iff,
      CatalogItem.schema, CatalogItem.name] at key ⊢
    refine ⟨by split <;> rfl, fun h => by rw [if_pos h], fun h => by rw [if_neg h],
      key _ (fun h => by rw [if_pos h])⟩
  | View schema view =>
    simp only [Callbacks.invoke, regclass_IoOutput.callbacks, mem_schemasMap_iff,
      CatalogItem.schema, CatalogItem.name] at key ⊢
    refine ⟨by split <;> rfl, fun h => by rw [if_pos h], fun h => by rw [if_neg h],
      key _ (fun h => by rw [if_pos h])⟩

theorem regclass_IoOutput_relation_witness :
    (regclass_IoOutput sampleContext 77).output = "orders" ∧
    (regclass_IoOutput sampleContext 93).output = "other" ++ "." ++ "seq" ∧
    (regclass_IoOutput sampleContext 94).output = "pg_class" :=
  ⟨(regclass_IoOutput_relation sampleContext 77 ["public"] (.Table ⟨1, "public"⟩ ⟨77, "orders"⟩)
      rfl (by decide) rfl).2.1 (by decide),
    (regclass_IoOutput_relation sampleContext 93 ["public"] (.Sequence ⟨2, "other"⟩ ⟨93, "seq"⟩)
      rfl (by decide) rfl).2.2.1 (by decide),
    (regclass_IoOutput_relation sampleContext 94 ["public"]
      (.View ⟨3, "pg_catalog"⟩ ⟨94, "pg_class"⟩) rfl (by decide) rfl).2.2.2 rfl⟩

/-- C17. Primary-key synthetic naming on output: when the OID resolves to the implicit
primary-key index (identifier "PRIMARY") of table T in schema S, `regclass_IoOutput`
returns T followed by "_pkey" if S is in scope and S, ".", T, "_pkey" otherwise, without
error; it never returns the identifier "PRIMARY". -/
theorem regclass_IoOutput_primary_key (ctx : Context) (oid : Nat) (schemas : List String)
    (schema : ItemSchema) (table : ItemTable) (index : ItemIndex)
    (hmap : ctx.GetCurrentSchemasAsMap = (schemas, none))
    (hlookup : ctx.lookup oid = (some (.Index schema table index), none))
    (hprimary : index.ID = "PRIMARY") :
    (regclass_IoOutput ctx oid).err = none ∧
    (inScope schemas schema.SchemaName →
      (regclass_IoOutput ctx oid).output = index.Table ++ "_pkey") ∧
    (¬ inScope schemas schema.SchemaName →
      (regclass_IoOutput ctx oid).output =
        schema.SchemaName ++ "." ++ index.Table ++ "_pkey") ∧
    (regclass_IoOutput ctx oid).output ≠ "PRIMARY" := by
  rw [regclass_IoOutput_of_item ctx oid schemas _ hmap hlookup]
  simp only [Callbacks.invoke, regclass_IoOutput.callbacks, mem_schemasMap_iff, hprimary,
    if_true]
  by_cases h : inScope schemas schema.SchemaName
  · simp only [if_pos h]
    exact ⟨trivial, fun _ => trivial, fun h' => absurd h h', append_pkey_ne_PRIMARY _⟩
  · simp only [if_neg h]
    exact ⟨trivial, fun h' => absurd h' h, fun _ => trivial, append_pkey_ne_PRIMARY _⟩

theorem regclass_IoOutput_primary_key_witness :
    (regclass_IoOutput sampleContext 78).output = "orders" ++ "_pkey" ∧
    (regclass_IoOutput sampleContext 91).output = "other" ++ "." ++ "t" ++ "_pkey" :=
  ⟨(regclass_IoOutput_primary_key sampleContext 78 ["public"] ⟨1, "public"⟩ ⟨77, "orders"⟩
      ⟨78, "PRIMARY", "orders"⟩ rfl (by decide) rfl).2.1 (by decide),
    (regclass_IoOutput_primary_key sampleContext 91 ["public"] ⟨2, "other"⟩ ⟨90, "t"⟩
      ⟨91, "PRIMARY", "t"⟩ rfl (by decide) rfl).2.2.1 (by decide)⟩

/-- C18. The index "idx" of the sample catalog is owned by schema "other", which is not
in scope for the search path "public"; `regclass_IoOutput` renders its OID as the bare
identifier "idx", not as "other.idx", while the table and the primary-key index of the
same schema are rendered with their schema. -/
theorem regclass_IoOutput_index_not_qualified :
    sampleContext.lookup 92 = (some (.Index ⟨2, "other"⟩ ⟨90, "t"⟩ ⟨92, "idx", "t"⟩), none) ∧
    sampleContext.GetCurrentSchemasAsMap = (["public"], none) ∧
    ¬ inScope ["public"] "other" ∧
    regclass_IoOutput sampleContext 92 =
      ⟨"idx", none, [.GetCurrentSchemasAsMap, .RunCallback 92]⟩ ∧
    (regclass_IoOutput sampleContext 90).output = "other.t" ∧
    (regclass_IoOutput sampleContext 91).output = "other.t_pkey" := by
  decide

/-- The index visitor of `regclass_IoOutput` on an index other than the implicit
primary key: the output is the bare identifier, whatever the schemas in scope. -/
theorem regclass_IoOutput_other_index (ctx : Context) (oid : Nat) (schemas : List String)
    (schema : ItemSchema) (table : ItemTable) (index : ItemIndex)
    (hmap : ctx.GetCurrentSchemasAsMap = (schemas, none))
    (hlookup : ctx.lookup oid = (some (.Index schema table index), none))
    (hother : index.ID ≠ "PRIMARY") :
    regclass_IoOutput ctx oid = ⟨index.ID, none, [.GetCurrentSchemasAsMap, .RunCallback oid]⟩ := by
  rw [regclass_IoOutput_of_item ctx oid schemas _ hmap hlookup]
  simp only [Callbacks.invoke, regclass_IoOutput.callbacks, hother, if_false]

/-- C19. Underlying errors propagate as they are. In `regclass_IoInput`, for an input
that is not a number and whose sections pass validation: an error of the search path
provider (one section) is returned, and an error returned by the catalog traversal is
returned. In `regclass_IoOutput`: an error of the current-schemas lookup is returned,
and an error returned by the single-target traversal is returned. -/
theorem regclass_errors_propagate (ctx : Context)
    (ioInputSections : String → List String × Option String) (input : String)
    (sections : List String) (oid : Nat) (e : String) :
    ((ParseUint input 32).2 ≠ none → ioInputSections input = (sections, none) →
      regclass_IoInputValidation input sections = none →
      (∀ s0 searchPath, sections = [s0] → ctx.SearchPath = (searchPath, some e) →
        (regclass_IoInput ctx ioInputSections input).err = some e) ∧
      (∀ database searchSchemas relationName resultOid,
        lookupScope ctx sections = some (database, searchSchemas, relationName) →
        IterateDatabase ctx database (regclass_IoInput.callbacks relationName searchSchemas) 0
          = (resultOid, some e) →
        (regclass_IoInput ctx ioInputSections input).err = some e)) ∧
    (∀ schemas, ctx.GetCurrentSchemasAsMap = (schemas, some e) →
      (regclass_IoOutput ctx oid).err = some e) ∧
    (∀ schemas output, ctx.GetCurrentSchemasAsMap = (schemas, none) →
      RunCallback ctx oid (regclass_IoOutput.callbacks ("pg_catalog" :: schemas))
        (FormatUint oid) = (output, some e) →
      (regclass_IoOutput ctx oid).err = some e) := by
  refine ⟨?_, ?_, ?_⟩
  · intro hnum hsec hvalid
    constructor
    · intro s0 searchPath hs hpath
      subst hs
      rw [regclass_IoInput_one_section ctx ioInputSections input s0 hnum hsec]
      simp only [hpath]
    · intro database searchSchemas relationName resultOid hscope hit
      obtain ⟨calls, hres⟩ := regclass_IoInput_eq_resolve ctx ioInputSections input sections
        database searchSchemas relationName hnum hsec hvalid hscope
      rw [hres, (regclass_IoInput_resolve_of_iterate ctx input database searchSchemas
        relationName calls _ _ hit).2]
      rw [if_pos (Or.inl (by simp))]
  · intro schemas hmap
    unfold regclass_IoOutput
    simp only [hmap]
  · intro schemas output hmap hrun
    unfold regclass_IoOutput
    simp only [hmap, hrun]

theorem regclass_errors_propagate_witness :
    (regclass_IoInput sampleFailingContext sampleSections "orders").err =
      some "search path unavailable" ∧
    (regclass_IoInput sampleFailingContext sampleSections "other.t").err =
      some "listing failed" ∧
    (regclass_IoOutput sampleFailingContext 77).err = some "current schemas unavailable" ∧
    (regclass_IoOutput sampleLookupFailingContext 77).err = some "lookup failed" :=
  ⟨((regclass_errors_propagate sampleFailingContext sampleSections "orders" ["orders"] 77
      "search path unavailable").1 (by decide) (by decide) (by decide)).1
      "orders" [] rfl rfl,
    ((regclass_errors_propagate sampleFailingContext sampleSections "other.t"
      ["other", ".", "t"] 77 "listing failed").1 (by decide) (by decide) (by decide)).2
      "postgres" ["other"] "t" 0 (by decide) (by decide),
    (regclass_errors_propagate sampleFailingContext sampleSections "orders" ["orders"] 77
      "current schemas unavailable").2.1 [] rfl,
    (regclass_errors_propagate sampleLookupFailingContext sampleSections "orders" ["orders"]
      77 "lookup failed").2.2 [] (FormatUint 77) rfl (by decide)⟩

end Doltgres

/-! ## Theorems: to_hex -/

namespace Doltgres

/-- C20. On the `int32` value -1, `to_hex_int32` returns sixteen hexadecimal digits,
the digits of -1 modulo 2^64, where the 32-bit representation (-1 modulo 2^32) has the
eight digits "ffffffff"; on the non-negative value 2147483647 it returns "7fffffff". -/
theorem to_hex_int32_negative_sign_extended :
    to_hex_int32 (-1) = ("ffffffffffffffff", none) ∧
    fmtHex ((-1 : Int) % 2 ^ 32).toNat = "ffffffff" ∧
    to_hex_int32 (-2147483648) = ("ffffffff80000000", none) ∧
    to_hex_int32 2147483647 = ("7fffffff", none) := by
  decide

/-- The digits `fmtHex` writes: between 1 and 16 of them for a number below 2^64, all
lowercase hexadecimal digits, standing for the number, without a leading zero unless the
number is zero. -/
theorem fmtHex_spec (u : Nat) (hu : u < 2 ^ 64) :
    1 ≤ (fmtHex u).toList.length ∧ (fmtHex u).toList.length ≤ 16 ∧
    (∀ c ∈ (fmtHex u).toList, c ∈ lowerHexDigits) ∧
    hexValue (fmtHex u).toList = u ∧
    (u ≠ 0 → (fmtHex u).toList.head? ≠ some '0') := by
  obtain ⟨l, hl, hne, hfold, hdig, hhead⟩ :=
    toDigitsCore_spec 16 (by decide) hexDigitValue (by decide) (u + 1) u []
      (Nat.lt_succ_self u)
  have hlen := Nat.toDigitsCore_length 16 (by decide) (u + 1) u 16 (by omega) (by decide)
  rw [hl, List.append_nil] at hlen
  have hrepr : (fmtHex u).toList = l := by
    show (Nat.toDigits 16 u) = l
    unfold Nat.toDigits
    rw [hl, List.append_nil]
  rw [hrepr]
  refine ⟨?_, hlen, ?_, hfold, ?_⟩
  · cases l with
    | nil => exact absurd rfl hne
    | cons c rest => simp
  · intro c hc
    obtain ⟨k, hk, rfl⟩ := hdig c hc
    have hd : ∀ k, k < 16 → Nat.digitChar k ∈ lowerHexDigits := by decide
    exact hd k hk
  · intro h0 hh
    obtain ⟨k, hk0, hk, hk'⟩ := hhead h0
    rw [hk'] at hh
    injection hh with hh
    have hz : ∀ k, k < 16 → 0 < k → Nat.digitChar k ≠ '0' := by decide
    exact hz k hk hk0 hh

/-- C21. For every value `v`, in particular every `int64`, `to_hex_int64` returns without
error the lowercase hexadecimal digits of `v` modulo 2^64, without leading zeros: the
result has between 1 and 16 digits, each of them one of "0123456789abcdef", it parses
back in base 16 to `v` modulo 2^64, and it starts with "0" only when it is "0". -/
theorem to_hex_int64_spec (v : Int) :
    (to_hex_int64 v).2 = none ∧
    1 ≤ (to_hex_int64 v).1.length ∧ (to_hex_int64 v).1.length ≤ 16 ∧
    (∀ c ∈ (to_hex_int64 v).1.toList, c ∈ lowerHexDigits) ∧
    (hexValue (to_hex_int64 v).1.toList : Int) = v % 2 ^ 64 ∧
    ((to_hex_int64 v).1.toList.head? = some '0' → (to_hex_int64 v).1 = "0") := by
  have hlt : (v % 2 ^ 64).toNat < 2 ^ 64 := by omega
  obtain ⟨h1, h2, h3, h4, h5⟩ := fmtHex_spec (v % 2 ^ 64).toNat hlt
  simp only [to_hex_int64]
  refine ⟨trivial, h1, h2, h3, ?_, ?_⟩
  · rw [h4]
    omega
  · intro hh
    by_cases h0 : (v % 2 ^ 64).toNat = 0
    · rw [h0]; decide
    · exact absurd hh (h5 h0)

end Doltgres

/-! ## Theorems: lower -/

namespace Doltgres

end Doltgres

/-! ## Theorems: decoding ignores trailing bytes -/

namespace Doltgres

/-- The encoding of the type that `DeserializeType` returns is a prefix of its input, of
2 bytes, or of 6 bytes for a `VarCharType`. -/
theorem DeserializeType_prefix (b : List Nat) (hbytes : isByteSlice b) (t : ExtendedType)
    (hdec : DeserializeType b = .returned (some t, none)) :
    ∃ p, SerializeType t = .returned (some p, none) ∧ p <+: b ∧
      (p.length = 2 ∨ (p.length = 6 ∧ ∃ n, t = .VarCharType n)) := by
  match b, hbytes, hdec with
  | [], _, hdec => cases hdec
  | [_], _, hdec => cases hdec
  | b0 :: b1 :: rest, hbytes, hdec =>
    rw [DeserializeType_cons_cons] at hdec
    by_cases h3 : b0 + b1 * 256 = 3
    · rw [if_pos h3] at hdec
      cases hdec
      have e0 : b0 = 3 := by omega
      have e1 : b1 = 0 := by omega
      subst e0 e1
      exact ⟨[3, 0], rfl, ⟨rest, rfl⟩, Or.inl rfl⟩
    rw [if_neg h3] at hdec
    by_cases h4 : b0 + b1 * 256 = 4
    · rw [if_pos h4] at hdec
      cases hdec
      have e0 : b0 = 4 := by omega
      have e1 : b1 = 0 := by omega
      subst e0 e1
      exact ⟨[4, 0], rfl, ⟨rest, rfl⟩, Or.inl rfl⟩
    rw [if_neg h4] at hdec
    by_cases h21 : b0 + b1 * 256 = 21
    · rw [if_pos h21] at hdec
      cases hdec
      have e0 : b0 = 21 := by omega
      have e1 : b1 = 0 := by omega
      subst e0 e1
      exact ⟨[21, 0], rfl, ⟨rest, rfl⟩, Or.inl rfl⟩
    rw [if_neg h21] at hdec
    by_cases h23 : b0 + b1 * 256 = 23
    · rw [if_pos h23] at hdec
      cases hdec
      have e0 : b0 = 23 := by omega
      have e1 : b1 = 0 := by omega
      subst e0 e1
      exact ⟨[23, 0], rfl, ⟨rest, rfl⟩, Or.inl rfl⟩
    rw [if_neg h23] at hdec
    by_cases h27 : b0 + b1 * 256 = 27
    · rw [if_pos h27] at hdec
      cases hdec
      have e0 : b0 = 27 := by omega
      have e1 : b1 = 0 := by omega
      subst e0 e1
      exact ⟨[27, 0], rfl, ⟨rest, rfl⟩, Or.inl rfl⟩
    rw [if_neg h27] at hdec
    by_cases h29 : b0 + b1 * 256 = 29
    · rw [if_pos h29] at hdec
      cases hdec
      have e0 : b0 = 29 := by omega
      have e1 : b1 = 0 := by omega
      subst e0 e1
      exact ⟨[29, 0], rfl, ⟨rest, rfl⟩, Or.inl rfl⟩
    rw [if_neg h29] at hdec
    by_cases h33 : b0 + b1 * 256 = 33
    · rw [if_pos h33] at hdec
      cases hdec
      have e0 : b0 = 33 := by omega
      have e1 : b1 = 0 := by omega
      subst e0 e1
      exact ⟨[33, 0], rfl, ⟨rest, rfl⟩, Or.inl rfl⟩
    rw [if_neg h33] at hdec
    by_cases h53 : b0 + b1 * 256 = 53
    · rw [if_pos h53] at hdec
      cases hdec
      have e0 : b0 = 53 := by omega
      have e1 : b1 = 0 := by omega
      subst e0 e1
      exact ⟨[53, 0], rfl, ⟨rest, rfl⟩, Or.inl rfl⟩
    rw [if_neg h53] at hdec
    by_cases h54 : b0 + b1 * 256 = 54
    · rw [if_pos h54] at hdec
      cases hdec
      have e0 : b0 = 54 := by omega
      have e1 : b1 = 0 := by omega
      subst e0 e1
      exact ⟨[54, 0], rfl, ⟨rest, rfl⟩, Or.inl rfl⟩
    rw [if_neg h54] at hdec
    by_cases h86 : b0 + b1 * 256 = 86
    · rw [if_pos h86] at hdec
      have e0 : b0 = 86 := by omega
      have e1 : b1 = 0 := by omega
      subst e0 e1
      rcases rest with _ | ⟨b2, _ | ⟨b3, _ | ⟨b4, _ | ⟨b5, rest⟩⟩⟩⟩
      · cases hdec
      · cases hdec
      · cases hdec
      · cases hdec
      · cases hdec
        have h2 : b2 < 256 := hbytes b2 (by simp)
        have h3 : b3 < 256 := hbytes b3 (by simp)
        have h4 : b4 < 256 := hbytes b4 (by simp)
        have h5 : b5 < 256 := hbytes b5 (by simp)
        refine ⟨_, SerializeType_VarCharType _, ⟨rest, ?_⟩, Or.inr ⟨rfl, _, rfl⟩⟩
        have k2 : (b2 + b3 * 256 + b4 * 65536 + b5 * 16777216) % 256 = b2 := by omega
        have k3 : (b2 + b3 * 256 + b4 * 65536 + b5 * 16777216) / 256 % 256 = b3 := by omega
        have k4 : (b2 + b3 * 256 + b4 * 65536 + b5 * 16777216) / 65536 % 256 = b4 := by
          omega
        have k5 : (b2 + b3 * 256 + b4 * 65536 + b5 * 16777216) / 16777216 % 256 = b5 := by
          omega
        rw [k2, k3, k4, k5]
        rfl
    rw [if_neg h86] at hdec
    by_cases h82 : b0 + b1 * 256 = 82
    · rw [if_pos h82] at hdec
      cases hdec
      have e0 : b0 = 82 := by omega
      have e1 : b1 = 0 := by omega
      subst e0 e1
      exact ⟨[82, 0], rfl, ⟨rest, rfl⟩, Or.inl rfl⟩
    rw [if_neg h82] at hdec
    cases hdec

/-- Decoding the encoding of a wired type followed by any bytes gives the type back. -/
theorem DeserializeType_append (v : ExtendedType) (x : List Nat)
    (hwired : v.wired = true) (hwf : v.wellFormed) :
    ∃ p, SerializeType v = .returned (some p, none) ∧
      DeserializeType (p ++ x) = .returned (some v, none) := by
  cases v with
  | VarCharType n =>
    refine ⟨_, SerializeType_VarCharType n, ?_⟩
    show DeserializeType (86 :: 0 :: n % 256 :: n / 256 % 256 :: n / 65536 % 256 ::
      n / 16777216 % 256 :: x) = _
    rw [DeserializeType_VarChar_six]
    have hn : n < 2 ^ 32 := hwf
    have : n % 256 + n / 256 % 256 * 256 + n / 65536 % 256 * 65536
        + n / 16777216 % 256 * 16777216 = n := by omega
    rw [this]
  | Unwired name => simp [ExtendedType.wired] at hwired
  | _ => exact ⟨_, rfl, rfl⟩

/-- C23. Function `DeserializeType` depends only on the encoding prefix and ignores
trailing bytes: for every byte sequence on which it returns a type `t` (and no error),
`SerializeType t` returns bytes that are a prefix of the input, the first 2 bytes, or
the first 6 for a `VarCharType`; and for every wired value `v` and every byte sequence
`x`, decoding the encoding of `v` followed by `x` returns `v`. -/
theorem DeserializeType_ignores_trailing_bytes :
    (∀ (b : List Nat) (t : ExtendedType), isByteSlice b →
      DeserializeType b = .returned (some t, none) →
      ∃ p, SerializeType t = .returned (some p, none) ∧ p <+: b ∧
        (p.length = 2 ∨ (p.length = 6 ∧ ∃ n, t = .VarCharType n))) ∧
    (∀ (v : ExtendedType) (x : List Nat), v.wired = true → v.wellFormed →
      ∃ p, SerializeType v = .returned (some p, none) ∧
        DeserializeType (p ++ x) = .returned (some v, none)) :=
  ⟨fun b t hb hd => DeserializeType_prefix b hb t hd,
    fun v x hw hf => DeserializeType_append v x hw hf⟩

theorem DeserializeType_ignores_trailing_bytes_witness :
    (∃ p, SerializeType (.VarCharType 300) = .returned (some p, none) ∧
      p <+: [86, 0, 44, 1, 0, 0, 9, 9] ∧
      (p.length = 2 ∨ (p.length = 6 ∧ ∃ n, ExtendedType.VarCharType 300 = .VarCharType n))) ∧
    (∃ p, SerializeType .UuidType = .returned (some p, none) ∧
      DeserializeType (p ++ [1, 2, 3]) = .returned (some .UuidType, none)) :=
  ⟨DeserializeType_ignores_trailing_bytes.1 [86, 0, 44, 1, 0, 0, 9, 9] (.VarCharType 300)
      (by decide) (by decide),
    DeserializeType_ignores_trailing_bytes.2 .UuidType [1, 2, 3] rfl (by decide)⟩

end Doltgres

/-! ## Theorems: the invalid OID -/

namespace Doltgres

/-- When the loop of `ParseUint` returns without error, what it read are decimal digits
and the value returned is their value, which fits 32 bits. -/
theorem ParseUint_loop_sound (cs : List Char) (n v : Nat) (hn : n < 2 ^ 32)
    (h : ParseUint.loop ((2 ^ 64 - 1) / 10 + 1) (2 ^ 32 - 1) cs n = (v, none)) :
    (∀ c ∈ cs, c.isDigit = true) ∧
    cs.foldl (fun n c => n * 10 + (c.toNat - '0'.toNat)) n = v ∧ v < 2 ^ 32 := by
  induction cs generalizing n with
  | nil =>
    simp only [ParseUint.loop, Prod.mk.injEq, and_true] at h
    subst h
    exact ⟨fun c hc => (by cases hc), rfl, hn⟩
  | cons c cs ih =>
    have h0 : '0'.toNat = 48 := rfl
    rw [ParseUint.loop] at h
    by_cases hc : 48 ≤ c.toNat ∧ c.toNat ≤ 57
    · rw [if_pos hc] at h
      rw [if_neg (by omega)] at h
      have e1 : n * 10 % 2 ^ 64 = n * 10 := Nat.mod_eq_of_lt (by omega)
      have e2 : (n * 10 + (c.toNat - 48)) % 2 ^ 64 = n * 10 + (c.toNat - 48) :=
        Nat.mod_eq_of_lt (by omega)
      simp only [e1, e2] at h
      by_cases hover : n * 10 + (c.toNat - 48) < n * 10 ∨
          n * 10 + (c.toNat - 48) > 2 ^ 32 - 1
      · rw [if_pos hover] at h
        cases h
      · rw [if_neg hover] at h
        obtain ⟨hd, hv, hlt⟩ := ih (n * 10 + (c.toNat - 48)) (by omega) h
        refine ⟨?_, ?_, hlt⟩
        · intro c' hc'
          rcases List.mem_cons.1 hc' with rfl | hmem
          · exact (isDigit_iff_toNat _).2 hc
          · exact hd c' hmem
        · simp only [List.foldl_cons, h0]
          exact hv
    · rw [if_neg hc] at h
      cases h

/-- When `ParseUint` returns without error, its input is a decimal literal of the value
returned, which fits 32 bits. -/
theorem ParseUint_sound (input : String) (v : Nat) (h : ParseUint input 32 = (v, none)) :
    input.toNat? = some v ∧ v < 2 ^ 32 := by
  unfold ParseUint at h
  by_cases hempty : input = ""
  · rw [if_pos hempty] at h
    cases h
  · rw [if_neg hempty] at h
    obtain ⟨hd, hv, hlt⟩ := ParseUint_loop_sound input.toList 0 v (by decide) h
    refine ⟨?_, hlt⟩
    have hnat : input.isNat = true := by
      simp only [String.isNat, Bool.and_eq_true, Bool.not_eq_true', String.all_eq,
        List.all_eq_true]
      refine ⟨?_, hd⟩
      cases he : input.isEmpty with
      | false => rfl
      | true => exact absurd ((String.isEmpty_iff input).1 he) hempty
    unfold String.toNat?
    rw [if_pos hnat, String.foldl_eq]
    exact congrArg some hv

/-- The traversal with the visitors of `regclass_IoInput` returns an error only with
`resultOid` as it was at the start: a visitor changes it only when it stops the
traversal, which then returns without error. -/
theorem regclass_IoInput_run_error (relationName : String) (searchSchemas : List String)
    (steps : List EnumStep) (s resultOid : Nat) (e : String)
    (h : IterateDatabase.run (regclass_IoInput.callbacks relationName searchSchemas) steps s =
      (resultOid, some e)) :
    resultOid = s := by
  induction steps with
  | nil => cases h
  | cons step rest ih =>
    cases step with
    | listingError err =>
      simp only [IterateDatabase.run, Prod.mk.injEq] at h
      exact h.1.symm
    | item i =>
      simp only [IterateDatabase.run, regclass_IoInput_callbacks_invoke] at h
      by_cases hm : i.matchName = relationName
      · simp only [hm, if_true] at h
        cases h
      · simp only [hm, if_false] at h
        exact ih h

/-- The traversal part of `regclass_IoInput` returns a non-zero OID when it returns no
error, and the OID 0 when it returns an error. -/
theorem regclass_IoInput_resolve_oid (ctx : Context) (input database : String)
    (searchSchemas : List String) (relationName : String) (calls : List Call) :
    ((regclass_IoInput.resolve ctx input database searchSchemas relationName calls).err = none →
      (regclass_IoInput.resolve ctx input database searchSchemas relationName calls).oid ≠ 0) ∧
    (∀ e, (regclass_IoInput.resolve ctx input database searchSchemas relationName calls).err
        = some e →
      (regclass_IoInput.resolve ctx input database searchSchemas relationName calls).oid = 0) := by
  rcases hit : IterateDatabase ctx database
    (regclass_IoInput.callbacks relationName searchSchemas) 0 with ⟨resultOid, err⟩
  obtain ⟨ho, he⟩ := regclass_IoInput_resolve_of_iterate ctx input database searchSchemas
    relationName calls resultOid err hit
  rw [ho, he]
  cases err with
  | some e' =>
    have hz : resultOid = 0 :=
      regclass_IoInput_run_error relationName searchSchemas _ 0 resultOid e' hit
    subst hz
    simp
  | none =>
    by_cases hr : resultOid = 0
    · subst hr
      simp
    · simp [hr]

/-- For an input that is not a number, `regclass_IoInput` either fails before the
traversal, with OID 0 and an error, or is the traversal part on some scope. -/
theorem regclass_IoInput_non_numeric (ctx : Context)
    (ioInputSections : String → List String × Option String) (input : String)
    (hnum : (ParseUint input 32).2 ≠ none) :
    (∃ e calls, regclass_IoInput ctx ioInputSections input = ⟨0, some e, calls⟩) ∨
    (∃ database searchSchemas relationName calls,
      regclass_IoInput ctx ioInputSections input =
        regclass_IoInput.resolve ctx input database searchSchemas relationName calls) := by
  rcases hs : ioInputSections input with ⟨sections, _ | e⟩
  swap
  · left
    refine ⟨e, [], ?_⟩
    unfold regclass_IoInput
    rcases hp : ParseUint input 32 with ⟨v, _ | pe⟩
    · rw [hp] at hnum
      exact absurd rfl hnum
    · simp only [hs]
  rcases hv : regclass_IoInputValidation input sections with _ | e
  swap
  · left
    refine ⟨e, [], ?_⟩
    unfold regclass_IoInput
    rcases hp : ParseUint input 32 with ⟨v, _ | pe⟩
    · rw [hp] at hnum
      exact absurd rfl hnum
    · simp only [hs, hv]
  rcases sections with _ | ⟨s0, _ | ⟨s1, _ | ⟨s2, _ | ⟨s3, _ | ⟨s4, _ | ⟨s5, rest⟩⟩⟩⟩⟩⟩
  · simp [regclass_IoInputValidation] at hv
  · rw [regclass_IoInput_one_section ctx ioInputSections input s0 hnum hs]
    rcases ctx.SearchPath with ⟨searchPath, _ | e⟩
    · exact Or.inr ⟨_, _, _, _, rfl⟩
    · exact Or.inl ⟨_, _, rfl⟩
  · simp [regclass_IoInputValidation] at hv
  · rw [regclass_IoInput_three_sections ctx ioInputSections input s0 s1 s2 hnum hs hv]
    exact Or.inr ⟨_, _, _, _, rfl⟩
  · simp [regclass_IoInputValidation] at hv
  · rw [regclass_IoInput_five_sections ctx ioInputSections input s0 s1 s2 s3 s4 hnum hs hv]
    exact Or.inr ⟨_, _, _, _, rfl⟩
  · rcases rest with _ | ⟨s6, _ | ⟨s7, rest⟩⟩
    · simp [regclass_IoInputValidation] at hv
    · simp only [regclass_IoInputValidation] at hv
      split at hv <;> cases hv
    · simp [regclass_IoInputValidation] at hv

/-- C24. A name lookup never succeeds with the invalid OID. For every input that does
not take the numeric fast path: when `regclass_IoInput` returns no error the OID it
returns is not 0, and when it returns an error (NotFound, a syntax error, or another)
the OID it returns is 0. OID 0 is returned without error only for a decimal literal of
value 0. And a matching catalog item whose OID is 0 is reported as
`relation "<input>" does not exist`. -/
theorem regclass_IoInput_invalid_oid (ctx : Context)
    (ioInputSections : String → List String × Option String) (input : String) :
    ((ParseUint input 32).2 ≠ none →
      ((regclass_IoInput ctx ioInputSections input).err = none →
        (regclass_IoInput ctx ioInputSections input).oid ≠ 0) ∧
      (∀ e, (regclass_IoInput ctx ioInputSections input).err = some e →
        (regclass_IoInput ctx ioInputSections input).oid = 0)) ∧
    ((regclass_IoInput ctx ioInputSections input).oid = 0 →
      (regclass_IoInput ctx ioInputSections input).err = none → input.toNat? = some 0) ∧
    (∀ (sections : List String) (database : String) (searchSchemas : List String)
        (relationName : String) (items : List CatalogItem) (i : CatalogItem),
      (ParseUint input 32).2 ≠ none → ioInputSections input = (sections, none) →
      regclass_IoInputValidation input sections = none →
      lookupScope ctx sections = some (database, searchSchemas, relationName) →
      ctx.enumeration database searchSchemas = items.map EnumStep.item →
      items.find? (fun i => i.matchName = relationName) = some i → i.OID = 0 →
      (regclass_IoInput ctx ioInputSections input).oid = 0 ∧
      (regclass_IoInput ctx ioInputSections input).err =
        some ("relation \"" ++ input ++ "\" does not exist")) := by
  have hnon : (ParseUint input 32).2 ≠ none →
      ((regclass_IoInput ctx ioInputSections input).err = none →
        (regclass_IoInput ctx ioInputSections input).oid ≠ 0) ∧
      (∀ e, (regclass_IoInput ctx ioInputSections input).err = some e →
        (regclass_IoInput ctx ioInputSections input).oid = 0) := by
    intro hnum
    rcases regclass_IoInput_non_numeric ctx ioInputSections input hnum with
      ⟨e, calls, h⟩ | ⟨database, searchSchemas, relationName, calls, h⟩
    · rw [h]
      exact ⟨fun h' => (by cases h'), fun _ _ => rfl⟩
    · rw [h]
      exact regclass_IoInput_resolve_oid ctx input database searchSchemas relationName calls
  refine ⟨hnon, ?_, ?_⟩
  · intro hoid herr
    rcases hp : ParseUint input 32 with ⟨v, _ | pe⟩
    · obtain ⟨hlit, hlt⟩ := ParseUint_sound input v hp
      have hr : regclass_IoInput ctx ioInputSections input = ⟨v % 2 ^ 32, none, []⟩ := by
        unfold regclass_IoInput
        simp only [hp]
      rw [hr] at hoid
      have hv : v = 0 := by
        have : v % 2 ^ 32 = 0 := hoid
        omega
      rw [hlit, hv]
    · have hnum : (ParseUint input 32).2 ≠ none := by rw [hp]; simp
      exact absurd hoid ((hnon hnum).1 herr)
  · intro sections database searchSchemas relationName items i hnum hsec hvalid hscope henum
      hfind hzero
    obtain ⟨calls, hres⟩ := regclass_IoInput_eq_resolve ctx ioInputSections input sections
      database searchSchemas relationName hnum hsec hvalid hscope
    have hrun := regclass_IoInput_run_items relationName searchSchemas items 0
    rw [hfind] at hrun
    simp only [hzero] at hrun
    have hit : IterateDatabase ctx database
        (regclass_IoInput.callbacks relationName searchSchemas) 0 = (0, none) := by
      unfold IterateDatabase
      show IterateDatabase.run _ (ctx.enumeration database searchSchemas) 0 = _
      rw [henum]
      exact hrun
    have h := regclass_IoInput_resolve_of_iterate ctx input database searchSchemas
      relationName calls _ _ hit
    rw [hres]
    rw [if_neg (by simp), if_neg (by simp)] at h
    exact h

theorem regclass_IoInput_invalid_oid_witness :
    (regclass_IoInput sampleContext sampleSections "orders").oid ≠ 0 ∧
    (regclass_IoInput sampleContext sampleSections "missing").oid = 0 ∧
    "0".toNat? = some 0 ∧
    ((regclass_IoInput sampleZeroOidContext sampleSections "ghost").oid = 0 ∧
      (regclass_IoInput sampleZeroOidContext sampleSections "ghost").err =
        some ("relation \"" ++ "ghost" ++ "\" does not exist")) :=
  ⟨((regclass_IoInput_invalid_oid sampleContext sampleSections "orders").1 (by decide)).1
      (by decide),
    ((regclass_IoInput_invalid_oid sampleContext sampleSections "missing").1 (by decide)).2
      "relation \"missing\" does not exist" (by decide),
    (regclass_IoInput_invalid_oid sampleContext sampleSections "0").2.1
      (by decide) (by decide),
    (regclass_IoInput_invalid_oid sampleZeroOidContext sampleSections "ghost").2.2
      ["ghost"] "postgres" ["public"] "ghost" [.Table ⟨1, "public"⟩ ⟨0, "ghost"⟩]
      (.Table ⟨1, "public"⟩ ⟨0, "ghost"⟩)
      (by decide) (by decide) (by decide) (by decide) (by decide) (by decide) (by decide)⟩

end Doltgres
